import Mathlib

/-!
# Reverse Alarm Clock: the scheduler of `script.js`

A shallow embedding of the scheduling core of the class `ReverseAlarmClock`
(`src/script.js`): the active-window test `isTimeInRange`, the next window start
`getNextActiveTime`, the random interval drawn in `scheduleNextAlarm`, and the
alarm lifecycle (`start`, `stop`, `scheduleAlarm`, `clearAlarm`, `triggerAlarm`,
`dismissAlarm`, `testSound`) as state passing over an explicit controller state
that also carries the host's table of outstanding timers.

Modelling conventions.

* An instant (`Date`) is a natural number of milliseconds on the local time line,
  a calendar day being exactly `86400000` ms (no daylight-saving shifts). The
  triple year/month/date of a `Date` is the day index `t / 86400000`.
* JavaScript numbers that hold integers are `Nat`/`Int`; the only genuinely
  fractional quantities (the draw of `Math.random()` and what is computed from
  it) are rationals, and every floating-point operation on them goes through an
  explicit rounding function `fl`.
* A timer handle is an abstract identifier; a handle returned by `setTimeout` is
  always truthy, so `if (this.alarmTimeout)` is the test `alarmTimeout ≠ null`.
* No method catches an exception. A method in which a Web Audio call can throw returns
  `Except State State`: `.ok s` is a normal return and `.error s` an uncaught exception,
  either with the fields as the method left them. The Web Audio calls throw as the
  standard says: `createBuffer` on a length of zero (or one the host cannot allocate),
  `stop(when)` on a negative `when`, and `stop()` on a source that was never started.
  The page is assumed to hold the elements that `initializeElements` looks up.
-/

namespace ReverseAlarmClock

/-! ## Dates -/

/-- Milliseconds in a minute. -/
def msPerMinute : Nat := 60000

/-- Milliseconds in an hour. -/
def msPerHour : Nat := 3600000

/-- Milliseconds in a calendar day. -/
def msPerDay : Nat := 86400000

/-- The method `Date.prototype.getHours` on the local time line. -/
def getHours (d : Nat) : Nat := d / msPerHour % 24

/-- The method `Date.prototype.getMinutes` on the local time line. -/
def getMinutes (d : Nat) : Nat := d / msPerMinute % 60

/-- The calendar day of an instant: stands for the triple
`getFullYear()`, `getMonth()`, `getDate()`. -/
def getDay (d : Nat) : Nat := d / msPerDay

/-- The date `new Date(year, month, date, hours, minutes)`, the first three arguments
being given by a day index; seconds and milliseconds are zero. -/
def mkDate (day hours minutes : Nat) : Nat :=
  day * msPerDay + hours * msPerHour + minutes * msPerMinute

/-- The minute of the day `now.getHours() * 60 + now.getMinutes()`. -/
def currentTimeOf (now : Nat) : Nat := getHours now * 60 + getMinutes now

/-- The value of a time input, the string `"HH:MM"` split at the colon. -/
structure TimeValue where
  hours : Nat
  minutes : Nat
deriving DecidableEq, Repr

/-- The method `parseTime`: `hours * 60 + minutes`. -/
def parseTime (t : TimeValue) : Nat := t.hours * 60 + t.minutes

/-! ## The active window -/

/-- The method `isTimeInRange(currentTime, startTime, endTime)`. -/
def isTimeInRange (currentTime startTime endTime : Nat) : Bool :=
  if startTime ≤ endTime then
    decide (currentTime ≥ startTime) && decide (currentTime ≤ endTime)
  else
    -- Handles overnight ranges (e.g., 22:00 to 06:00)
    decide (currentTime ≥ startTime) || decide (currentTime ≤ endTime)

/-- The method `getNextActiveTime(now, startTime, endTime)`. -/
def getNextActiveTime (now startTime endTime : Nat) : Nat :=
  let currentTime := getHours now * 60 + getMinutes now
  let nextDay := now + msPerDay
  if startTime ≤ endTime then
    -- Same day range
    if currentTime < startTime then
      mkDate (getDay now) (startTime / 60) (startTime % 60)
    else
      mkDate (getDay nextDay) (startTime / 60) (startTime % 60)
  else
    -- Overnight range
    if currentTime ≥ startTime then
      mkDate (getDay nextDay) (startTime / 60) (startTime % 60)
    else if currentTime ≤ endTime then
      mkDate (getDay now) (startTime / 60) (startTime % 60)
    else
      mkDate (getDay now) (startTime / 60) (startTime % 60)

/-! ## The random interval -/

/-- The delay `randomInterval` of `scheduleNextAlarm`, in milliseconds:
`Math.random() * (maxInterval - minInterval) + minInterval` with
`minInterval = parseInt(min) * 60 * 1000` and `maxInterval = parseInt(max) * 60 * 1000`.
Every arithmetic operation of the source is one floating-point operation, whose exact
result is rounded by `fl`. -/
def randomInterval (fl : ℚ → ℚ) (random : ℚ) (minValue maxValue : Int) : ℚ :=
  let minInterval := fl (fl ((minValue : ℚ) * 60) * 1000) -- Convert to milliseconds
  let maxInterval := fl (fl ((maxValue : ℚ) * 60) * 1000)
  fl (fl (random * fl (maxInterval - minInterval)) + minInterval)

/-! ## The controller state -/

/-- The options of the sound selector, the cases of the switch in `playAnnoyingSound`. -/
inductive SoundType where
  | dialup | beep | squeal | static | chirp | whine
deriving DecidableEq, Repr

/-- A history entry `{ time, sound, date }`; `time` and `date` hold the instants that
`toLocaleTimeString` and `toLocaleDateString` format. -/
structure AlarmRecord where
  time : Nat
  sound : SoundType
  date : Nat
deriving DecidableEq, Repr

/-- A timer armed by `setTimeout(() => this.triggerAlarm(), delay)` that has neither
expired nor been cancelled. -/
structure Timer where
  id : Nat
  delay : ℚ
deriving DecidableEq

/-- The oscillator node created by `playAnnoyingSound` for a sound type and a duration in
seconds; `started` tells whether `oscillator.start()` has been called on it. -/
structure Oscillator where
  soundType : SoundType
  duration : Int
  started : Bool
deriving DecidableEq, Repr

/-- The gain node created by `playAnnoyingSound`, set to a volume. -/
structure GainNode where
  volume : ℚ
deriving DecidableEq

/-- The values of the settings elements, read afresh at each use. -/
structure Settings where
  startTime : TimeValue
  endTime : TimeValue
  minInterval : Int
  maxInterval : Int
  soundType : SoundType
  volume : Int
  duration : Int
deriving DecidableEq, Repr

/-- What one call reads from its environment: the clock (`new Date()`, `Date.now()`),
the draw of `Math.random()`, the rounding of floating-point arithmetic, the settings
elements, whether `Notification.permission` is `granted`, and of the audio context its
`currentTime` in seconds, its `sampleRate` and the longest buffer, in sample frames, that
the host is able to allocate. -/
structure Env where
  now : Nat
  random : ℚ
  fl : ℚ → ℚ
  settings : Settings
  notificationGranted : Bool
  currentTime : ℚ
  sampleRate : Nat
  bufferLimit : Nat

/-- The fields of a `ReverseAlarmClock` that the lifecycle reads and writes, the `active`
class of the alarm overlay, and of the host: the outstanding timers whose callback is
`triggerAlarm`, the next fresh timer handle (shared with the timers and intervals of the
sound synthesis) and the number of notifications shown. -/
structure State where
  isActive : Bool
  nextAlarmTime : Option Int
  alarmTimeout : Option Nat
  audioContext : Bool
  oscillator : Option Oscillator
  gainNode : Option GainNode
  history : List AlarmRecord
  overlayActive : Bool
  timers : List Timer
  nextTimerId : Nat
  notifications : Nat
deriving DecidableEq

/-- The state left by the constructor; `audio` tells whether `initializeAudio` obtained an
audio context. -/
def init (audio : Bool) : State :=
  { isActive := false
    nextAlarmTime := none
    alarmTimeout := none
    audioContext := audio
    oscillator := none
    gainNode := none
    history := []
    overlayActive := false
    timers := []
    nextTimerId := 1
    notifications := 0 }

/-- The host function `clearTimeout(id)`: the timer with that handle, if still outstanding,
is dropped. -/
def clearTimeout (timers : List Timer) (id : Nat) : List Timer :=
  timers.filter (fun t => t.id != id)

/-- The time value of `new Date(x)`: the number truncated to an integer. -/
def timeClip (x : ℚ) : Int := Int.tdiv x.num x.den

/-- The method `clearAlarm`. -/
def clearAlarm (s : State) : State :=
  let s :=
    match s.alarmTimeout with
    | some h => { s with timers := clearTimeout s.timers h, alarmTimeout := none }
    | none => s
  { s with nextAlarmTime := none }

/-- The method `scheduleAlarm(delay)`. -/
def scheduleAlarm (s : State) (e : Env) (delay : ℚ) : State :=
  let s := clearAlarm s
  { s with
    nextAlarmTime := some (timeClip (e.fl ((e.now : ℚ) + delay)))
    alarmTimeout := some s.nextTimerId
    timers := s.timers ++ [{ id := s.nextTimerId, delay := delay }]
    nextTimerId := s.nextTimerId + 1 }

/-- The method `scheduleNextAlarm`. -/
def scheduleNextAlarm (s : State) (e : Env) : State :=
  if !s.isActive then s
  else
    let now := e.now
    let startTime := parseTime e.settings.startTime
    let endTime := parseTime e.settings.endTime
    -- Check if we're in the active time window
    let currentTime := getHours now * 60 + getMinutes now
    let isInActiveWindow := isTimeInRange currentTime startTime endTime
    if !isInActiveWindow then
      -- Schedule for next active window
      let nextActiveTime := getNextActiveTime now startTime endTime
      let delay : Int := (nextActiveTime : Int) - (now : Int)
      scheduleAlarm s e (delay : ℚ)
    else
      -- Generate random interval within min/max range
      scheduleAlarm s e
        (randomInterval e.fl e.random e.settings.minInterval e.settings.maxInterval)

/-- The delay that `scheduleNextAlarm` passes to `scheduleAlarm`: the wait for the next
window start outside the window, the random interval inside it. -/
def nextDelay (e : Env) : ℚ :=
  if isTimeInRange (currentTimeOf e.now) (parseTime e.settings.startTime)
      (parseTime e.settings.endTime) then
    randomInterval e.fl e.random e.settings.minInterval e.settings.maxInterval
  else
    (((getNextActiveTime e.now (parseTime e.settings.startTime)
      (parseTime e.settings.endTime) : Int) - (e.now : Int) : Int) : ℚ)

/-- The history after `triggerAlarm` put a record in front of `history`. -/
def pushRecord (r : AlarmRecord) (history : List AlarmRecord) : List AlarmRecord :=
  if (r :: history).length > 10 then (r :: history).dropLast else r :: history

/-- The method `start`. -/
def start (s : State) (e : Env) : State :=
  if s.isActive then s
  else scheduleNextAlarm { s with isActive := true } e

/-- The method `stop`. -/
def stop (s : State) : State :=
  clearAlarm { s with isActive := false }

/-- The state an uncaught exception or a normal return leaves behind: what the fields hold
once the event handler has ended either way. -/
def finalState : Except State State → State
  | .ok s => s
  | .error s => s

/-- The method `createDialupSound`: `setTimeout(changeFreq, 200)` takes a timer handle. -/
def createDialupSound (s : State) : State :=
  { s with nextTimerId := s.nextTimerId + 1 }

/-- The method `createBeepSound`: `setInterval` takes a timer handle. -/
def createBeepSound (s : State) : State :=
  { s with nextTimerId := s.nextTimerId + 1 }

/-- The method `createSquealSound`: only schedules frequency ramps. -/
def createSquealSound (s : State) : State := s

/-- The method `createStaticSound`. `createBuffer(1, bufferSize, sampleRate)` converts
`bufferSize` to an unsigned 32-bit length and throws when that length is zero or more than
the host can allocate; `noise.stop(currentTime + duration)` throws when its argument is
negative. -/
def createStaticSound (s : State) (e : Env) : Except State State :=
  let bufferSize : Int := (e.sampleRate : Int) * e.settings.duration
  let length : Nat := (bufferSize % 4294967296).toNat
  if length = 0 ∨ e.bufferLimit < length then .error s
  else if e.fl (e.currentTime + (e.settings.duration : ℚ)) < 0 then .error s
  else .ok s

/-- The method `createChirpSound`: `setInterval` takes a timer handle. -/
def createChirpSound (s : State) : State :=
  { s with nextTimerId := s.nextTimerId + 1 }

/-- The method `createWhineSound`: only schedules frequency ramps. -/
def createWhineSound (s : State) : State := s

/-- The method `playAnnoyingSound`. An exception of a Web Audio call is not caught: it
ends the method with the fields as they are at that point. -/
def playAnnoyingSound (s : State) (e : Env) : Except State State :=
  if !s.audioContext then .ok s
  else
    let soundType := e.settings.soundType
    let volume := e.fl ((e.settings.volume : ℚ) / 100)
    let duration := e.settings.duration
    let s :=
      { s with
        oscillator := some { soundType := soundType, duration := duration, started := false }
        gainNode := some { volume := volume } }
    -- Configure sound based on type
    let configured : Except State State :=
      match soundType with
      | .dialup => .ok (createDialupSound s)
      | .beep => .ok (createBeepSound s)
      | .squeal => .ok (createSquealSound s)
      | .static => createStaticSound s e
      | .chirp => .ok (createChirpSound s)
      | .whine => .ok (createWhineSound s)
    match configured with
    | .error s => .error s
    | .ok s =>
      -- this.oscillator.start()
      let s := { s with oscillator := s.oscillator.map (fun o => { o with started := true }) }
      -- this.oscillator.stop(this.audioContext.currentTime + duration)
      if e.fl (e.currentTime + (duration : ℚ)) < 0 then .error s else .ok s

/-- Whether `playAnnoyingSound`, given an audio context, ends by an exception: for the
static sound when `createBuffer` refuses the length, and for every sound when the stop time
`currentTime + duration` is negative. -/
def soundThrows (e : Env) : Bool :=
  (e.settings.soundType == SoundType.static &&
    decide (((e.sampleRate : Int) * e.settings.duration % 4294967296).toNat = 0 ∨
      e.bufferLimit < ((e.sampleRate : Int) * e.settings.duration % 4294967296).toNat)) ||
  decide (e.fl (e.currentTime + (e.settings.duration : ℚ)) < 0)

/-- The timer handles that configuring a sound takes. -/
def soundTimers : SoundType → Nat
  | .dialup => 1
  | .beep => 1
  | .squeal => 0
  | .static => 0
  | .chirp => 1
  | .whine => 0

/-- The fields after `playAnnoyingSound` ran, whether it returned or threw: with an audio
context both nodes are stored, the oscillator is started unless the static sound threw,
and the handles of the sound timers are taken. -/
def afterSound (s : State) (e : Env) : State :=
  if s.audioContext then
    { s with
      oscillator := some
        { soundType := e.settings.soundType
          duration := e.settings.duration
          started := !(e.settings.soundType == SoundType.static && soundThrows e) }
      gainNode := some { volume := e.fl ((e.settings.volume : ℚ) / 100) }
      nextTimerId := s.nextTimerId + soundTimers e.settings.soundType }
  else s

/-- Whether `stopSound` ends by an exception: an oscillator is stored that was never
started. -/
def stopThrows (s : State) : Bool :=
  match s.oscillator with
  | some o => !o.started
  | none => false

/-- The method `sendNotification`. -/
def sendNotification (s : State) (e : Env) : State :=
  if e.notificationGranted then { s with notifications := s.notifications + 1 } else s

/-- The object `alarmRecord` built by `triggerAlarm`. -/
def alarmRecord (e : Env) : AlarmRecord :=
  { time := e.now, sound := e.settings.soundType, date := e.now }

/-- The method `triggerAlarm`. The call of `playAnnoyingSound` is not guarded: when it
throws, the method ends there, after the history has been written. -/
def triggerAlarm (s : State) (e : Env) : Except State State :=
  -- Add to history
  let history := alarmRecord e :: s.history
  let history := if history.length > 10 then history.dropLast else history
  let s := { s with history := history }
  -- Play sound
  match playAnnoyingSound s e with
  | .error s => .error s
  | .ok s =>
    -- Show overlay
    let s := { s with overlayActive := true }
    -- Send notification
    let s := sendNotification s e
    -- Schedule next alarm
    .ok (scheduleNextAlarm s e)

/-- The method `stopSound`. `oscillator.stop()` throws on a node that was never started,
before either field is cleared. -/
def stopSound (s : State) : Except State State :=
  match s.oscillator with
  | some o =>
    if !o.started then .error s
    else
      let s := { s with oscillator := none }
      match s.gainNode with
      | some _ => .ok { s with gainNode := none }
      | none => .ok s
  | none =>
    match s.gainNode with
    | some _ => .ok { s with gainNode := none }
    | none => .ok s

/-- The method `dismissAlarm`. -/
def dismissAlarm (s : State) : Except State State :=
  stopSound { s with overlayActive := false }

/-- The method `testSound`. -/
def testSound (s : State) (e : Env) : Except State State :=
  playAnnoyingSound s e

/-! ## Events -/

/-- What can happen to a controller: a click on one of the four buttons, the expiry of
the timer with handle `id`, or a callback of the sound synthesis arming a further timer. -/
inductive Event where
  | start (e : Env)
  | stop
  | dismissAlarm
  | testSound (e : Env)
  | timerExpiry (id : Nat) (e : Env)
  | soundTimer

/-- One event; the state is the one the handler leaves, by return or by exception. A timer
expires only while it is outstanding: the host then drops it from its table and runs the
callback `triggerAlarm`. A timer armed by a callback of the sound synthesis (`changeFreq`,
the beep interval) takes the next handle. -/
def step (s : State) : Event → Option State
  | .start e => some (start s e)
  | .stop => some (stop s)
  | .dismissAlarm => some (finalState (dismissAlarm s))
  | .testSound e => some (finalState (testSound s e))
  | .timerExpiry id e =>
    if s.timers.any (fun t => t.id == id) then
      some (finalState (triggerAlarm { s with timers := clearTimeout s.timers id } e))
    else none
  | .soundTimer => some { s with nextTimerId := s.nextTimerId + 1 }

/-- A sequence of events, from left to right. -/
def run (s : State) : List Event → Option State
  | [] => some s
  | ev :: evs => (step s ev).bind (fun s' => run s' evs)

/-- The states a controller can be in: those reached from the constructor by events. -/
inductive Reachable : State → Prop where
  | init (audio : Bool) : Reachable (init audio)
  | step {s s' : State} (ev : Event) : Reachable s → step s ev = some s' → Reachable s'

/-- The invariant of the lifecycle: a handle is stored exactly when a time is stored and
exactly when the controller is active, at most one timer is outstanding, and an
outstanding timer is the stored one. -/
def Inv (s : State) : Prop :=
  (s.alarmTimeout.isSome = s.isActive) ∧
  (s.nextAlarmTime.isSome = s.isActive) ∧
  (∀ t ∈ s.timers, s.alarmTimeout = some t.id) ∧
  s.timers.length ≤ 1

/-- The inactive state of the specification that keeps everything else of `s`, its history
included: not active, no pending time, no stored handle, no outstanding timer. -/
def inactiveOf (s : State) : State :=
  { s with isActive := false, nextAlarmTime := none, alarmTimeout := none, timers := [] }

/-! ## Concrete inputs -/

/-- The settings with a given window and interval bounds and the other defaults of
`loadSettings`. -/
def settingsOf (startTime endTime : TimeValue) (minInterval maxInterval : Int) : Settings :=
  { startTime := startTime
    endTime := endTime
    minInterval := minInterval
    maxInterval := maxInterval
    soundType := SoundType.dialup
    volume := 50
    duration := 10 }

/-- An environment with exact arithmetic, the draw `1/2`, notifications granted and an
audio context just created at 48 kHz. -/
def envAt (now : Nat) (settings : Settings) : Env :=
  { now := now
    random := 1 / 2
    fl := id
    settings := settings
    notificationGranted := true
    currentTime := 0
    sampleRate := 48000
    bufferLimit := 2147483647 }

/-- The window 09:00-17:00 with intervals of 30 to 120 minutes. -/
def daySettings : Settings := settingsOf ⟨9, 0⟩ ⟨17, 0⟩ 30 120

/-- The window 22:00-06:00 with intervals of 30 to 120 minutes, the defaults. -/
def nightSettings : Settings := settingsOf ⟨22, 0⟩ ⟨6, 0⟩ 30 120

/-- The instant 20:00 of day 0. -/
def eightPm : Nat := 72000000

/-- The instant 23:00 of day 0. -/
def elevenPm : Nat := 82800000

/-- The instant 09:00 of day 1. -/
def nineAmNextDay : Nat := 118800000

/-- A firing at hour `i` of day 0 under the default settings with the sound `sound`. -/
def firingAt (i : Nat) (sound : SoundType) : Env :=
  envAt (i * msPerHour) { nightSettings with soundType := sound }

/-- Eleven firings, one per hour from 00:00 of day 0, the sound changed before each. -/
def elevenFirings : List Env :=
  [firingAt 0 SoundType.dialup, firingAt 1 SoundType.beep, firingAt 2 SoundType.squeal,
   firingAt 3 SoundType.static, firingAt 4 SoundType.chirp, firingAt 5 SoundType.whine,
   firingAt 6 SoundType.dialup, firingAt 7 SoundType.beep, firingAt 8 SoundType.squeal,
   firingAt 9 SoundType.static, firingAt 10 SoundType.chirp]

/-- A controller started at 20:00 with the window 09:00-17:00: it waits for the window. -/
def waitingForWindow : State := start (init true) (envAt eightPm daySettings)

/-- A controller started at 23:00 with the window 22:00-06:00: armed inside the window. -/
def armedInWindow : State := start (init true) (envAt elevenPm nightSettings)

/-- The window 09:00-17:00 with the static sound and a duration of 0 seconds. -/
def staticZeroSettings : Settings :=
  { daySettings with soundType := SoundType.static, duration := 0 }

/-- The controller `waitingForWindow` after its timer expired at 09:00 the next day with the
static sound and a duration of 0 seconds selected: `createBuffer` threw. -/
def abortedAlarm : State :=
  finalState (triggerAlarm
    { waitingForWindow with timers := clearTimeout waitingForWindow.timers 1 }
    (envAt nineAmNextDay staticZeroSettings))

/-- A controller just switched on, before `scheduleNextAlarm` has run. -/
def switchedOn : State := { init true with isActive := true }

/-- A controller whose alarm has just fired at 23:00 inside the window 22:00-06:00: the
sound is playing and the overlay is shown. -/
def alarmFired : State :=
  finalState (triggerAlarm switchedOn (envAt elevenPm nightSettings))

/-! ## The active window: lemmas -/

theorem currentTimeOf_eq (now : Nat) : currentTimeOf now = now / 60000 % 1440 := by
  simp only [currentTimeOf, getHours, getMinutes, msPerHour, msPerMinute]
  omega

theorem getNextActiveTime_cases (now ws we : Nat) :
    getNextActiveTime now ws we =
      if now / 60000 % 1440 < ws then now / 86400000 * 86400000 + ws * 60000
      else (now / 86400000 + 1) * 86400000 + ws * 60000 := by
  have hc := currentTimeOf_eq now
  simp only [currentTimeOf] at hc
  simp only [getNextActiveTime, mkDate, getDay, msPerDay, msPerHour, msPerMinute, hc]
  split_ifs <;> omega

theorem scheduleNextAlarm_inWindow (s : State) (e : Env) (ha : s.isActive = true)
    (hw : isTimeInRange (currentTimeOf e.now) (parseTime e.settings.startTime)
      (parseTime e.settings.endTime) = true) :
    scheduleNextAlarm s e =
      scheduleAlarm s e
        (randomInterval e.fl e.random e.settings.minInterval e.settings.maxInterval) := by
  simp only [currentTimeOf] at hw
  simp [scheduleNextAlarm, ha, hw]

theorem scheduleNextAlarm_outside (s : State) (e : Env) (ha : s.isActive = true)
    (hw : isTimeInRange (currentTimeOf e.now) (parseTime e.settings.startTime)
      (parseTime e.settings.endTime) = false) :
    scheduleNextAlarm s e =
      scheduleAlarm s e
        (((getNextActiveTime e.now (parseTime e.settings.startTime)
          (parseTime e.settings.endTime) : Int) - (e.now : Int) : Int) : ℚ) := by
  simp only [currentTimeOf] at hw
  simp [scheduleNextAlarm, ha, hw]

/-! ## The active window: claims -/

/-- C1, as the code has it: a window whose start equals its end is the same-day range
from that minute to itself, so `isTimeInRange` holds at that one minute of the day and
at no other. -/
theorem isTimeInRange_start_eq_end (now w : Nat) :
    isTimeInRange now w w = true ↔ now = w := by
  simp [isTimeInRange]
  omega

/-- C1 fails as stated: with the window 09:00-09:00 the minute 12:00 is outside it, so
the window does not span the whole day. -/
theorem isTimeInRange_start_eq_end_not_whole_day :
    (720 < 1440 ∧ 540 < 1440) ∧ isTimeInRange 720 540 540 = false := by
  decide

/-- C3: for an overnight window (`windowStart > windowEnd`) `isTimeInRange` holds exactly
when `now >= windowStart` or `now <= windowEnd`; and with the window 22:00-06:00 at 23:00
an active controller takes the random-interval branch of `scheduleNextAlarm`. -/
theorem isTimeInRange_overnight :
    (∀ now ws we : Nat, we < ws →
      (isTimeInRange now ws we = true ↔ (now ≥ ws ∨ now ≤ we))) ∧
    (∀ (s : State) (e : Env), s.isActive = true → currentTimeOf e.now = 1380 →
      parseTime e.settings.startTime = 1320 → parseTime e.settings.endTime = 360 →
      scheduleNextAlarm s e =
        scheduleAlarm s e
          (randomInterval e.fl e.random e.settings.minInterval e.settings.maxInterval)) := by
  constructor
  · intro now ws we h
    simp [isTimeInRange, Nat.not_le.mpr h]
  · intro s e ha hc hs he
    apply scheduleNextAlarm_inWindow s e ha
    rw [hc, hs, he]
    decide

/-- C3 at the window 22:00-06:00 and 23:00. -/
theorem isTimeInRange_overnight_witness :
    isTimeInRange 1380 1320 360 = true ∧
    scheduleNextAlarm switchedOn (envAt elevenPm nightSettings) =
      scheduleAlarm switchedOn (envAt elevenPm nightSettings)
        (randomInterval id (1 / 2) 30 120) :=
  ⟨(isTimeInRange_overnight.1 1380 1320 360 (by decide)).2 (Or.inl (by decide)),
   isTimeInRange_overnight.2 switchedOn (envAt elevenPm nightSettings) rfl (by decide)
     (by decide) (by decide)⟩

/-- C4: for a same-day window (`windowStart < windowEnd`) `isTimeInRange` holds exactly
when `windowStart <= now <= windowEnd`; both boundary minutes are inside the window. -/
theorem isTimeInRange_same_day (now ws we : Nat) (h : ws < we) :
    (isTimeInRange now ws we = true ↔ (ws ≤ now ∧ now ≤ we)) ∧
    isTimeInRange ws ws we = true ∧ isTimeInRange we ws we = true := by
  have hle : ws ≤ we := Nat.le_of_lt h
  simp [isTimeInRange, hle]

/-- C4 at the window 09:00-17:00 and 20:00: outside the window. -/
theorem isTimeInRange_same_day_witness :
    isTimeInRange 1200 540 1020 = false ∧
    isTimeInRange 540 540 1020 = true ∧ isTimeInRange 1020 540 1020 = true :=
  ⟨by
    have h := (isTimeInRange_same_day 1200 540 1020 (by decide)).1
    cases hb : isTimeInRange 1200 540 1020
    · rfl
    · exact absurd (h.1 hb).2 (by decide),
   (isTimeInRange_same_day 1200 540 1020 (by decide)).2⟩

/-- C5: for every instant `now` and every window start below 1440, `getNextActiveTime`
returns the next occurrence of the window start: its time of day is `windowStart:00.000`,
it is strictly later than `now` and at most 24 hours later, it lies today if the minute of
`now` is before the window start and tomorrow otherwise, no instant with that time of day
lies strictly between `now` and it, and the delay `nextActiveTime - now` is positive; this
is the delay `scheduleNextAlarm` passes to `scheduleAlarm` outside the window. -/
theorem getNextActiveTime_next_occurrence (now ws we : Nat) (hws : ws < 1440) :
    getNextActiveTime now ws we % msPerDay = ws * msPerMinute ∧
    now < getNextActiveTime now ws we ∧
    getNextActiveTime now ws we ≤ now + msPerDay ∧
    getDay (getNextActiveTime now ws we) =
      (if currentTimeOf now < ws then getDay now else getDay now + 1) ∧
    (∀ t : Nat, now < t → t % msPerDay = ws * msPerMinute →
      getNextActiveTime now ws we ≤ t) ∧
    (0 : Int) < (getNextActiveTime now ws we : Int) - (now : Int) ∧
    (∀ (s : State) (e : Env), s.isActive = true → e.now = now →
      parseTime e.settings.startTime = ws → parseTime e.settings.endTime = we →
      isTimeInRange (currentTimeOf now) ws we = false →
      scheduleNextAlarm s e =
        scheduleAlarm s e
          (((getNextActiveTime now ws we : Int) - (now : Int) : Int) : ℚ)) := by
  rw [getNextActiveTime_cases, currentTimeOf_eq]
  simp only [msPerDay, msPerMinute, getDay]
  refine ⟨?_, ?_, ?_, ?_, ?_, ?_, ?_⟩
  · split_ifs <;> omega
  · split_ifs <;> omega
  · split_ifs <;> omega
  · split_ifs <;> omega
  · intro t ht hmod
    split_ifs <;> omega
  · split_ifs <;> omega
  · intro s e ha hn hs he hw
    subst hn hs he
    rw [← currentTimeOf_eq] at hw
    rw [scheduleNextAlarm_outside s e ha hw, getNextActiveTime_cases]

/-- C5 at the window 09:00-17:00 and 20:00: the next window start is 09:00 tomorrow. -/
theorem getNextActiveTime_next_occurrence_witness :
    getNextActiveTime eightPm 540 1020 = nineAmNextDay ∧
    getNextActiveTime eightPm 540 1020 % msPerDay = 540 * msPerMinute ∧
    eightPm < getNextActiveTime eightPm 540 1020 ∧
    getNextActiveTime eightPm 540 1020 ≤ eightPm + msPerDay :=
  ⟨by decide,
   (getNextActiveTime_next_occurrence eightPm 540 1020 (by decide)).1,
   (getNextActiveTime_next_occurrence eightPm 540 1020 (by decide)).2.1,
   (getNextActiveTime_next_occurrence eightPm 540 1020 (by decide)).2.2.1⟩

/-! ## The random interval: claims -/

theorem fl_minutes (fl : ℚ → ℚ) (hfix : ∀ n : Int, |n| ≤ 2 ^ 53 → fl (n : ℚ) = (n : ℚ))
    (v : Int) (h0 : 0 ≤ v) (h1 : v * 60000 ≤ 2 ^ 53) :
    fl (fl ((v : ℚ) * 60) * 1000) = (v : ℚ) * 60000 := by
  have e1 : fl ((v : ℚ) * 60) = (v : ℚ) * 60 := by
    have h := hfix (v * 60) (by rw [abs_of_nonneg (by omega)]; omega)
    push_cast at h
    exact h
  have e2 : fl ((v : ℚ) * 60 * 1000) = (v : ℚ) * 60000 := by
    have h := hfix (v * 60000) (by rw [abs_of_nonneg (by omega)]; omega)
    push_cast at h
    rw [← h]
    congr 1
    ring
  rw [e1, e2]

theorem fl_milliseconds (fl : ℚ → ℚ) (hfix : ∀ n : Int, |n| ≤ 2 ^ 53 → fl (n : ℚ) = (n : ℚ))
    (v : Int) (h0 : 0 ≤ v) (h1 : v * 60000 ≤ 2 ^ 53) :
    fl ((v : ℚ) * 60000) = (v : ℚ) * 60000 := by
  have h := hfix (v * 60000) (by rw [abs_of_nonneg (by omega)]; omega)
  push_cast at h
  exact h

theorem randomInterval_bounds (fl : ℚ → ℚ) (r : ℚ) (minV maxV : Int)
    (hmono : Monotone fl) (hfix : ∀ n : Int, |n| ≤ 2 ^ 53 → fl (n : ℚ) = (n : ℚ))
    (hmin : 0 < minV) (hle : minV ≤ maxV) (hmax : maxV * 60000 ≤ 2 ^ 53)
    (hr0 : 0 ≤ r) (hr1 : r < 1) :
    (minV : ℚ) * 60000 ≤ randomInterval fl r minV maxV ∧
    randomInterval fl r minV maxV ≤ (maxV : ℚ) * 60000 := by
  have em := fl_minutes fl hfix minV (by omega) (by omega)
  have eM := fl_minutes fl hfix maxV (by omega) hmax
  have fm := fl_milliseconds fl hfix minV (by omega) (by omega)
  have fM := fl_milliseconds fl hfix maxV (by omega) hmax
  have ed : fl ((maxV : ℚ) * 60000 - (minV : ℚ) * 60000)
      = (maxV : ℚ) * 60000 - (minV : ℚ) * 60000 := by
    have h := hfix (maxV * 60000 - minV * 60000) (by rw [abs_of_nonneg (by omega)]; omega)
    push_cast at h
    exact h
  have e0 : fl 0 = 0 := by
    have h := hfix 0 (by norm_num)
    simpa using h
  have hd : (0 : ℚ) ≤ (maxV : ℚ) * 60000 - (minV : ℚ) * 60000 := by
    have : (minV : ℚ) ≤ (maxV : ℚ) := by exact_mod_cast hle
    linarith
  have hlo : 0 ≤ fl (r * ((maxV : ℚ) * 60000 - (minV : ℚ) * 60000)) := by
    rw [← e0]
    exact hmono (mul_nonneg hr0 hd)
  have hhi : fl (r * ((maxV : ℚ) * 60000 - (minV : ℚ) * 60000))
      ≤ (maxV : ℚ) * 60000 - (minV : ℚ) * 60000 := by
    rw [← ed]
    apply hmono
    rw [ed]
    nlinarith
  have key : randomInterval fl r minV maxV
      = fl (fl (r * ((maxV : ℚ) * 60000 - (minV : ℚ) * 60000)) + (minV : ℚ) * 60000) := by
    simp only [randomInterval, em, eM, ed]
  constructor
  · rw [key]
    calc (minV : ℚ) * 60000 = fl ((minV : ℚ) * 60000) := fm.symm
      _ ≤ _ := hmono (by linarith)
  · rw [key]
    calc fl (fl (r * ((maxV : ℚ) * 60000 - (minV : ℚ) * 60000)) + (minV : ℚ) * 60000)
        ≤ fl ((maxV : ℚ) * 60000) := hmono (by linarith)
      _ = (maxV : ℚ) * 60000 := fM

/-- C6: for interval bounds `0 < min <= max` and a draw `r` in `[0, 1)`, the delay
`r * (max*60000 - min*60000) + min*60000` computed in `scheduleNextAlarm` is at least
`min` minutes and at most `max` minutes, and equals `min` minutes when `min = max`; it is
the delay passed to `scheduleAlarm` inside the window. The floating-point arithmetic is any
rounding that is monotone and exact on the integers up to `2^53`, with `max` minutes
below that limit in milliseconds. -/
theorem randomInterval_within_bounds (e : Env)
    (hmono : Monotone e.fl) (hfix : ∀ n : Int, |n| ≤ 2 ^ 53 → e.fl (n : ℚ) = (n : ℚ))
    (hmin : 0 < e.settings.minInterval)
    (hle : e.settings.minInterval ≤ e.settings.maxInterval)
    (hmax : e.settings.maxInterval * 60000 ≤ 2 ^ 53)
    (hr0 : 0 ≤ e.random) (hr1 : e.random < 1) :
    (e.settings.minInterval : ℚ) * 60000 ≤
      randomInterval e.fl e.random e.settings.minInterval e.settings.maxInterval ∧
    randomInterval e.fl e.random e.settings.minInterval e.settings.maxInterval ≤
      (e.settings.maxInterval : ℚ) * 60000 ∧
    (e.settings.minInterval = e.settings.maxInterval →
      randomInterval e.fl e.random e.settings.minInterval e.settings.maxInterval =
        (e.settings.minInterval : ℚ) * 60000) ∧
    (∀ s : State, s.isActive = true →
      isTimeInRange (currentTimeOf e.now) (parseTime e.settings.startTime)
        (parseTime e.settings.endTime) = true →
      scheduleNextAlarm s e =
        scheduleAlarm s e
          (randomInterval e.fl e.random e.settings.minInterval e.settings.maxInterval)) := by
  have hb := randomInterval_bounds e.fl e.random e.settings.minInterval
    e.settings.maxInterval hmono hfix hmin hle hmax hr0 hr1
  refine ⟨hb.1, hb.2, ?_, fun s ha hw => scheduleNextAlarm_inWindow s e ha hw⟩
  intro h
  apply le_antisymm _ hb.1
  calc randomInterval e.fl e.random e.settings.minInterval e.settings.maxInterval
      ≤ (e.settings.maxInterval : ℚ) * 60000 := hb.2
    _ = (e.settings.minInterval : ℚ) * 60000 := by rw [h]

/-- C6 at `min = max = 30`: the interval is 1 800 000 ms. -/
theorem randomInterval_within_bounds_witness :
    randomInterval id (1 / 2) 30 30 = 1800000 := by
  have h := (randomInterval_within_bounds (envAt elevenPm (settingsOf ⟨22, 0⟩ ⟨6, 0⟩ 30 30))
    monotone_id (fun _ _ => rfl) (by decide) (by decide) (by decide)
    (by norm_num [envAt]) (by norm_num [envAt])).2.2.1 rfl
  norm_num [envAt, settingsOf] at h
  exact h

/-! ## The lifecycle: each method as one update -/

theorem clearAlarm_eq (s : State) :
    clearAlarm s =
      { s with
        nextAlarmTime := none
        alarmTimeout := none
        timers := match s.alarmTimeout with
          | some h => clearTimeout s.timers h
          | none => s.timers } := by
  obtain ⟨a, nt, t, audio, o, g, h, ov, ts, n, k⟩ := s
  cases t <;> rfl

theorem scheduleAlarm_eq (s : State) (e : Env) (d : ℚ) :
    scheduleAlarm s e d =
      { s with
        nextAlarmTime := some (timeClip (e.fl ((e.now : ℚ) + d)))
        alarmTimeout := some s.nextTimerId
        timers := (clearAlarm s).timers ++ [{ id := s.nextTimerId, delay := d }]
        nextTimerId := s.nextTimerId + 1 } := by
  simp [scheduleAlarm, clearAlarm_eq]

theorem scheduleNextAlarm_eq (s : State) (e : Env) :
    scheduleNextAlarm s e = if s.isActive then scheduleAlarm s e (nextDelay e) else s := by
  cases ha : s.isActive
  · simp [scheduleNextAlarm, ha]
  · cases hw : isTimeInRange (currentTimeOf e.now) (parseTime e.settings.startTime)
      (parseTime e.settings.endTime)
    · simp [scheduleNextAlarm_outside s e ha hw, nextDelay, hw]
    · simp [scheduleNextAlarm_inWindow s e ha hw, nextDelay, hw]

theorem playAnnoyingSound_eq (s : State) (e : Env) :
    playAnnoyingSound s e =
      if s.audioContext && soundThrows e then Except.error (afterSound s e)
      else Except.ok (afterSound s e) := by
  obtain ⟨a, nt, t, audio, o, g, h, ov, ts, n, k⟩ := s
  cases audio
  · rfl
  · by_cases hneg : e.fl (e.currentTime + (e.settings.duration : ℚ)) < 0 <;>
      by_cases hb : (((e.sampleRate : Int) * e.settings.duration % 4294967296).toNat = 0 ∨
        e.bufferLimit < ((e.sampleRate : Int) * e.settings.duration % 4294967296).toNat) <;>
      cases hst : e.settings.soundType <;>
      simp only [playAnnoyingSound, afterSound, soundThrows, soundTimers, createStaticSound,
        createDialupSound, createBeepSound, createSquealSound, createChirpSound,
        createWhineSound, hst, hneg, hb, Bool.not_true, Bool.false_eq_true, if_false,
        if_true, Option.map_some', decide_True, decide_False, Bool.or_true, Bool.or_false,
        Bool.and_true, Bool.and_false, Bool.true_and, Bool.false_and, Bool.not_false,
        beq_self_eq_true, Nat.add_zero, Bool.true_or, Bool.false_or] <;>
      try rfl

theorem sendNotification_eq (s : State) (e : Env) :
    sendNotification s e =
      { s with
        notifications := if e.notificationGranted then s.notifications + 1
          else s.notifications } := by
  unfold sendNotification
  cases e.notificationGranted <;> rfl

theorem stopSound_eq (s : State) :
    stopSound s =
      if stopThrows s then Except.error s
      else Except.ok { s with oscillator := none, gainNode := none } := by
  obtain ⟨a, nt, t, audio, o, g, h, ov, ts, n, k⟩ := s
  cases o with
  | none => cases g <;> rfl
  | some osc =>
    obtain ⟨st, d, started⟩ := osc
    cases started <;> cases g <;> rfl

theorem dismissAlarm_eq (s : State) :
    dismissAlarm s =
      if stopThrows s then Except.error { s with overlayActive := false }
      else Except.ok { s with overlayActive := false, oscillator := none, gainNode := none } := by
  rw [dismissAlarm, stopSound_eq]
  rfl

theorem afterSound_frame (s : State) (e : Env) :
    (afterSound s e).isActive = s.isActive ∧
    (afterSound s e).nextAlarmTime = s.nextAlarmTime ∧
    (afterSound s e).alarmTimeout = s.alarmTimeout ∧
    (afterSound s e).timers = s.timers ∧
    (afterSound s e).history = s.history ∧
    (afterSound s e).overlayActive = s.overlayActive ∧
    (afterSound s e).notifications = s.notifications ∧
    (afterSound s e).audioContext = s.audioContext := by
  unfold afterSound
  split_ifs <;> exact ⟨rfl, rfl, rfl, rfl, rfl, rfl, rfl, rfl⟩

theorem afterSound_playback (s : State) (e : Env) :
    (afterSound s e).oscillator.isSome = (afterSound s e).gainNode.isSome ↔
      s.oscillator.isSome = s.gainNode.isSome ∨ s.audioContext = true := by
  unfold afterSound
  cases ha : s.audioContext <;> simp

theorem triggerAlarm_eq (s : State) (e : Env) :
    triggerAlarm s e =
      if s.audioContext && soundThrows e then
        Except.error (afterSound { s with history := pushRecord (alarmRecord e) s.history } e)
      else
        Except.ok (scheduleNextAlarm
          { afterSound { s with history := pushRecord (alarmRecord e) s.history } e with
            overlayActive := true
            notifications := if e.notificationGranted then s.notifications + 1
              else s.notifications } e) := by
  have h0 : triggerAlarm s e =
      (match playAnnoyingSound { s with history := pushRecord (alarmRecord e) s.history } e with
        | Except.error s1 => Except.error s1
        | Except.ok s1 =>
          Except.ok (scheduleNextAlarm (sendNotification { s1 with overlayActive := true } e) e)) :=
    rfl
  have hn : (afterSound { s with history := pushRecord (alarmRecord e) s.history } e).notifications
      = s.notifications := (afterSound_frame _ e).2.2.2.2.2.2.1
  rw [h0, playAnnoyingSound_eq]
  cases hc : (s.audioContext && soundThrows e)
  · simp only [hc, Bool.false_eq_true, if_false, sendNotification_eq, hn]
  · simp only [hc, if_true]

theorem finalState_playAnnoyingSound (s : State) (e : Env) :
    finalState (playAnnoyingSound s e) = afterSound s e := by
  rw [playAnnoyingSound_eq]
  split_ifs <;> rfl

theorem finalState_dismissAlarm (s : State) :
    finalState (dismissAlarm s) =
      if stopThrows s then { s with overlayActive := false }
      else { s with overlayActive := false, oscillator := none, gainNode := none } := by
  rw [dismissAlarm_eq]
  split_ifs <;> rfl

/-! ## The history -/

theorem take_append_take {α : Type} (n : Nat) (l₁ l₂ : List α) :
    (l₁ ++ l₂.take n).take n = (l₁ ++ l₂).take n := by
  rw [List.take_append_eq_append_take, List.take_append_eq_append_take, List.take_take]
  congr 2
  omega

theorem pushRecord_eq_take (r : AlarmRecord) (history : List AlarmRecord)
    (h : history.length ≤ 10) : pushRecord r history = (r :: history).take 10 := by
  unfold pushRecord
  split_ifs with hl
  · have hlen : (r :: history).length = 10 + 1 := by
      simp only [List.length_cons] at hl ⊢
      omega
    rw [List.dropLast_eq_take, hlen]
  · rw [List.take_of_length_le (by omega)]

theorem pushRecord_length (r : AlarmRecord) (history : List AlarmRecord)
    (h : history.length ≤ 10) : (pushRecord r history).length ≤ 10 := by
  rw [pushRecord_eq_take r history h, List.length_take]
  omega

theorem scheduleNextAlarm_history (s : State) (e : Env) :
    (scheduleNextAlarm s e).history = s.history := by
  rw [scheduleNextAlarm_eq, scheduleAlarm_eq]
  split_ifs <;> rfl

theorem triggerAlarm_history (s : State) (e : Env) :
    (finalState (triggerAlarm s e)).history = pushRecord (alarmRecord e) s.history := by
  rw [triggerAlarm_eq]
  cases hc : (s.audioContext && soundThrows e)
  · simp only [Bool.false_eq_true, if_false, finalState]
    rw [scheduleNextAlarm_history]
    exact (afterSound_frame _ e).2.2.2.2.1
  · simp only [if_true, finalState]
    exact (afterSound_frame _ e).2.2.2.2.1

theorem step_history (s s' : State) (ev : Event) (h : step s ev = some s')
    (hne : ∀ (id : Nat) (e : Env), ev ≠ Event.timerExpiry id e) : s'.history = s.history := by
  cases ev with
  | start e =>
    simp only [step, Option.some.injEq] at h
    subst h
    unfold start
    split_ifs
    · rfl
    · rw [scheduleNextAlarm_history]
  | stop =>
    simp only [step, Option.some.injEq] at h
    subst h
    rw [stop, clearAlarm_eq]
  | dismissAlarm =>
    simp only [step, Option.some.injEq] at h
    subst h
    rw [finalState_dismissAlarm]
    split_ifs <;> rfl
  | testSound e =>
    simp only [step, Option.some.injEq] at h
    subst h
    rw [testSound, finalState_playAnnoyingSound]
    exact (afterSound_frame s e).2.2.2.2.1
  | timerExpiry id e => exact absurd rfl (hne id e)
  | soundTimer =>
    simp only [step, Option.some.injEq] at h
    subst h
    rfl

theorem step_history_length (s s' : State) (ev : Event) (h : step s ev = some s')
    (hl : s.history.length ≤ 10) : s'.history.length ≤ 10 := by
  cases ev with
  | timerExpiry id e =>
    simp only [step] at h
    split_ifs at h
    simp only [Option.some.injEq] at h
    subst h
    rw [triggerAlarm_history]
    exact pushRecord_length _ _ hl
  | start e => rw [step_history s s' _ h (fun _ _ hh => by cases hh)]; exact hl
  | stop => rw [step_history s s' _ h (fun _ _ hh => by cases hh)]; exact hl
  | dismissAlarm => rw [step_history s s' _ h (fun _ _ hh => by cases hh)]; exact hl
  | testSound e => rw [step_history s s' _ h (fun _ _ hh => by cases hh)]; exact hl
  | soundTimer => rw [step_history s s' _ h (fun _ _ hh => by cases hh)]; exact hl

theorem reachable_history_length (s : State) (h : Reachable s) : s.history.length ≤ 10 := by
  induction h with
  | init audio => simp [init]
  | step ev _ hs ih => exact step_history_length _ _ ev hs ih

theorem foldl_triggerAlarm_history (es : List Env) :
    ∀ s : State, s.history.length ≤ 10 →
      (es.foldl (fun s e => finalState (triggerAlarm s e)) s).history =
        ((es.map alarmRecord).reverse ++ s.history).take 10 := by
  induction es with
  | nil =>
    intro s hl
    simp [List.take_of_length_le hl]
  | cons e es ih =>
    intro s hl
    have hl' : (finalState (triggerAlarm s e)).history.length ≤ 10 := by
      rw [triggerAlarm_history]
      exact pushRecord_length _ _ hl
    rw [List.foldl_cons, ih _ hl', triggerAlarm_history, pushRecord_eq_take _ _ hl,
      take_append_take]
    simp

/-- C7: the history of a reachable state never holds more than 10 records; starting from
an empty history, after the calls of `triggerAlarm` in the environments `es`, whether they
return or are ended by an exception of the sound playback, the history is the 10 most
recent records (all of them if fewer), newest first, the record of a call holding the
instant of the call and the sound type selected at that call; after 11 calls the first
record is gone and the other 10 remain, newest first. -/
theorem history_bounded_newest_first :
    (∀ s : State, Reachable s → s.history.length ≤ 10) ∧
    (∀ (s : State) (es : List Env), s.history = [] →
      (es.foldl (fun s e => finalState (triggerAlarm s e)) s).history =
        ((es.map (fun e =>
          ({ time := e.now, sound := e.settings.soundType, date := e.now } : AlarmRecord))
          ).reverse).take 10 ∧
      (es.foldl (fun s e => finalState (triggerAlarm s e)) s).history.length =
        min es.length 10) ∧
    (∀ (s : State) (e : Env) (es : List Env), s.history = [] → es.length = 10 →
      ((e :: es).foldl (fun s e => finalState (triggerAlarm s e)) s).history =
        (es.map (fun e =>
          ({ time := e.now, sound := e.settings.soundType, date := e.now } : AlarmRecord))
          ).reverse) := by
  have hrec : (fun e : Env =>
      ({ time := e.now, sound := e.settings.soundType, date := e.now } : AlarmRecord))
      = alarmRecord := rfl
  rw [hrec]
  have key : ∀ (s : State) (es : List Env), s.history = [] →
      (es.foldl (fun s e => finalState (triggerAlarm s e)) s).history =
        ((es.map alarmRecord).reverse).take 10 := by
    intro s es hs
    rw [foldl_triggerAlarm_history es s (by simp [hs]), hs, List.append_nil]
  refine ⟨reachable_history_length, fun s es hs => ⟨key s es hs, ?_⟩, ?_⟩
  · rw [key s es hs]
    simp [Nat.min_comm]
  · intro s e es hs hl
    rw [key s (e :: es) hs, List.map_cons, List.reverse_cons,
      List.take_append_of_le_length (by simp [hl])]
    exact List.take_of_length_le (by simp [hl])

/-- C7 at eleven hourly firings from the constructor's state, the sound changed before
each: the record of 00:00 is gone, those of 10:00 down to 01:00 remain, each with the sound
selected at its hour; and at one firing that the sound playback ends by an exception: its
record is in the history all the same. -/
theorem history_bounded_newest_first_witness :
    (elevenFirings.foldl (fun s e => finalState (triggerAlarm s e)) (init true)).history =
      [{ time := 10 * msPerHour, sound := SoundType.chirp, date := 10 * msPerHour },
       { time := 9 * msPerHour, sound := SoundType.static, date := 9 * msPerHour },
       { time := 8 * msPerHour, sound := SoundType.squeal, date := 8 * msPerHour },
       { time := 7 * msPerHour, sound := SoundType.beep, date := 7 * msPerHour },
       { time := 6 * msPerHour, sound := SoundType.dialup, date := 6 * msPerHour },
       { time := 5 * msPerHour, sound := SoundType.whine, date := 5 * msPerHour },
       { time := 4 * msPerHour, sound := SoundType.chirp, date := 4 * msPerHour },
       { time := 3 * msPerHour, sound := SoundType.static, date := 3 * msPerHour },
       { time := 2 * msPerHour, sound := SoundType.squeal, date := 2 * msPerHour },
       { time := 1 * msPerHour, sound := SoundType.beep, date := 1 * msPerHour }] ∧
    (elevenFirings.foldl (fun s e => finalState (triggerAlarm s e)) (init true)).history.length
      = 10 ∧
    (start (init true) (envAt elevenPm nightSettings)).history.length ≤ 10 ∧
    (∃ s : State,
      triggerAlarm (init true) (envAt nineAmNextDay staticZeroSettings) = Except.error s) ∧
    ([envAt nineAmNextDay staticZeroSettings].foldl
        (fun s e => finalState (triggerAlarm s e)) (init true)).history =
      [{ time := nineAmNextDay, sound := SoundType.static, date := nineAmNextDay }] :=
  ⟨(history_bounded_newest_first.2.1 (init true) elevenFirings rfl).1.trans (by decide),
   (history_bounded_newest_first.2.1 (init true) elevenFirings rfl).2,
   history_bounded_newest_first.1 _
     (Reachable.step (Event.start (envAt elevenPm nightSettings)) (Reachable.init true) rfl),
   ⟨_, rfl⟩,
   (history_bounded_newest_first.2.1 (init true) [envAt nineAmNextDay staticZeroSettings]
     rfl).1.trans (by decide)⟩

/-! ## The lifecycle invariant -/

theorem clearAlarm_timers_nil (s : State)
    (h : ∀ t ∈ s.timers, s.alarmTimeout = some t.id) : (clearAlarm s).timers = [] := by
  rw [clearAlarm_eq]
  cases ht : s.alarmTimeout with
  | none =>
    rw [ht] at h
    simp only
    exact List.eq_nil_iff_forall_not_mem.mpr (fun t hmem => by simpa using h t hmem)
  | some k =>
    rw [ht] at h
    simp only [clearTimeout, List.filter_eq_nil_iff]
    intro t hmem
    have hk : some k = some t.id := h t hmem
    simp only [Option.some.injEq] at hk
    simp [hk]

theorem Inv_of_sched (s s' : State) (h1 : s'.isActive = s.isActive)
    (h2 : s'.nextAlarmTime = s.nextAlarmTime) (h3 : s'.alarmTimeout = s.alarmTimeout)
    (h4 : s'.timers = s.timers) (h : Inv s) : Inv s' := by
  unfold Inv
  rw [h1, h2, h3, h4]
  exact h

theorem scheduleAlarm_inv (s : State) (e : Env) (d : ℚ) (ha : s.isActive = true)
    (h : ∀ t ∈ s.timers, s.alarmTimeout = some t.id) : Inv (scheduleAlarm s e d) := by
  rw [scheduleAlarm_eq, clearAlarm_timers_nil s h]
  simp [Inv, ha]

theorem scheduleAlarm_timers (s : State) (e : Env) (d : ℚ)
    (h : ∀ t ∈ s.timers, s.alarmTimeout = some t.id) :
    (scheduleAlarm s e d).timers = [{ id := s.nextTimerId, delay := d }] := by
  rw [scheduleAlarm_eq, clearAlarm_timers_nil s h]
  rfl

theorem scheduleNextAlarm_inv (s : State) (e : Env) (ha : s.isActive = true)
    (h : ∀ t ∈ s.timers, s.alarmTimeout = some t.id) : Inv (scheduleNextAlarm s e) := by
  rw [scheduleNextAlarm_eq, ha]
  exact scheduleAlarm_inv s e _ ha h

theorem stop_inv (s : State) (h : ∀ t ∈ s.timers, s.alarmTimeout = some t.id) :
    Inv (stop s) := by
  have ht : (stop s).timers = [] := clearAlarm_timers_nil { s with isActive := false } h
  refine ⟨?_, ?_, ?_, ?_⟩
  · rw [stop, clearAlarm_eq]
    rfl
  · rw [stop, clearAlarm_eq]
    rfl
  · rw [ht]
    intro t hmem
    cases hmem
  · rw [ht]
    exact Nat.zero_le 1

theorem start_inv (s : State) (e : Env) (h : Inv s) : Inv (start s e) := by
  unfold start
  split_ifs with ha
  · exact h
  · rw [scheduleNextAlarm_eq]
    simp only [if_true]
    exact scheduleAlarm_inv _ e _ rfl h.2.2.1

theorem clearTimeout_sub (ts : List Timer) (id : Nat) (t : Timer)
    (h : t ∈ clearTimeout ts id) : t ∈ ts :=
  (List.mem_filter.mp h).1

theorem clearTimeout_length (ts : List Timer) (id : Nat) :
    (clearTimeout ts id).length ≤ ts.length :=
  List.length_filter_le _ ts

theorem triggerAlarm_inv (s : State) (e : Env) (id : Nat) (h : Inv s)
    (hid : s.timers.any (fun t => t.id == id) = true) :
    Inv (finalState (triggerAlarm { s with timers := clearTimeout s.timers id } e)) := by
  obtain ⟨h1, h2, h3, h4⟩ := h
  obtain ⟨t, ht, _⟩ := List.any_eq_true.mp hid
  have ha : s.isActive = true := by
    rw [← h1, h3 t ht]
    rfl
  have hsub : ∀ u ∈ clearTimeout s.timers id, s.alarmTimeout = some u.id :=
    fun u hu => h3 u (clearTimeout_sub _ _ _ hu)
  have hf := afterSound_frame
    { s with
      timers := clearTimeout s.timers id
      history := pushRecord (alarmRecord e) s.history } e
  rw [triggerAlarm_eq]
  cases hc : (s.audioContext && soundThrows e)
  · simp only [Bool.false_eq_true, if_false, finalState]
    apply scheduleNextAlarm_inv
    · exact hf.1.trans ha
    · intro u hu
      have hu' : u ∈ clearTimeout s.timers id :=
        Eq.mp (congrArg (fun l => u ∈ l) hf.2.2.2.1) hu
      exact hf.2.2.1.trans (hsub u hu')
  · simp only [if_true, finalState]
    apply Inv_of_sched { s with timers := clearTimeout s.timers id } _
      hf.1 hf.2.1 hf.2.2.1 hf.2.2.2.1
    exact ⟨h1, h2, hsub, Nat.le_trans (clearTimeout_length _ _) h4⟩

theorem step_inv (s s' : State) (ev : Event) (h : Inv s) (hs : step s ev = some s') :
    Inv s' := by
  cases ev with
  | start e =>
    simp only [step, Option.some.injEq] at hs
    subst hs
    exact start_inv s e h
  | stop =>
    simp only [step, Option.some.injEq] at hs
    subst hs
    exact stop_inv s h.2.2.1
  | dismissAlarm =>
    simp only [step, Option.some.injEq] at hs
    subst hs
    rw [finalState_dismissAlarm]
    split_ifs <;> exact h
  | testSound e =>
    simp only [step, Option.some.injEq] at hs
    subst hs
    rw [testSound, finalState_playAnnoyingSound]
    exact Inv_of_sched s _ (afterSound_frame s e).1 (afterSound_frame s e).2.1
      (afterSound_frame s e).2.2.1 (afterSound_frame s e).2.2.2.1 h
  | timerExpiry id e =>
    simp only [step] at hs
    split_ifs at hs with hid
    simp only [Option.some.injEq] at hs
    subst hs
    exact triggerAlarm_inv s e id h hid
  | soundTimer =>
    simp only [step, Option.some.injEq] at hs
    subst hs
    exact h

theorem reachable_inv (s : State) (h : Reachable s) : Inv s := by
  induction h with
  | init audio => simp [Inv, init]
  | step ev _ hs ih => exact step_inv _ _ ev ih hs

theorem waitingForWindow_reachable : Reachable waitingForWindow :=
  Reachable.step (Event.start (envAt eightPm daySettings)) (Reachable.init true) rfl

theorem armedInWindow_reachable : Reachable armedInWindow :=
  Reachable.step (Event.start (envAt elevenPm nightSettings)) (Reachable.init true) rfl

theorem abortedAlarm_reachable : Reachable abortedAlarm :=
  Reachable.step (Event.timerExpiry 1 (envAt nineAmNextDay staticZeroSettings))
    waitingForWindow_reachable rfl

theorem abortedAlarm_fields :
    abortedAlarm.isActive = true ∧ abortedAlarm.alarmTimeout = some 1 ∧
    abortedAlarm.timers = [] ∧ abortedAlarm.overlayActive = false ∧
    abortedAlarm.notifications = 0 ∧
    abortedAlarm.history =
      [{ time := nineAmNextDay, sound := SoundType.static, date := nineAmNextDay }] ∧
    abortedAlarm.oscillator =
      some { soundType := SoundType.static, duration := 0, started := false } :=
  ⟨rfl, rfl, rfl, rfl, rfl, rfl, rfl⟩

/-- C8: in every state reachable from the constructor by `start`, `stop`, `dismissAlarm`,
`testSound` and expiries of outstanding timers, handlers ended by an exception included,
`alarmTimeout` is non-null iff `nextAlarmTime` is non-null iff `isActive` is true; an
inactive controller holds no handle, no pending time and has no timer outstanding, an
active one holds a handle and a pending time, and the timer of that handle is the only one
that can be outstanding. -/
theorem timer_time_active_coincide (s : State) (h : Reachable s) :
    (s.alarmTimeout ≠ none ↔ s.nextAlarmTime ≠ none) ∧
    (s.nextAlarmTime ≠ none ↔ s.isActive = true) ∧
    (s.isActive = false → s.alarmTimeout = none ∧ s.nextAlarmTime = none ∧ s.timers = []) ∧
    (s.isActive = true →
      ∃ (id : Nat) (t : Int), s.alarmTimeout = some id ∧ s.nextAlarmTime = some t ∧
        (s.timers = [] ∨ ∃ d : ℚ, s.timers = [{ id := id, delay := d }])) := by
  obtain ⟨h1, h2, h3, h4⟩ := reachable_inv s h
  cases ha : s.isActive
  · rw [ha] at h1 h2
    have e1 : s.alarmTimeout = none := by simpa using h1
    have e2 : s.nextAlarmTime = none := by simpa using h2
    have e3 : s.timers = [] :=
      List.eq_nil_iff_forall_not_mem.mpr (fun t ht => by simpa [e1] using h3 t ht)
    simp [e1, e2, e3]
  · rw [ha] at h1 h2
    obtain ⟨id, e1⟩ := Option.isSome_iff_exists.mp h1
    obtain ⟨t, e2⟩ := Option.isSome_iff_exists.mp h2
    have e3 : s.timers = [] ∨ ∃ d : ℚ, s.timers = [{ id := id, delay := d }] := by
      match hts : s.timers with
      | [] => exact Or.inl rfl
      | [u] =>
        have hu := h3 u (by simp [hts])
        rw [e1] at hu
        simp only [Option.some.injEq] at hu
        exact Or.inr ⟨u.delay, by rw [hu]⟩
      | u :: v :: rest => simp [hts] at h4
    simp only [e1, e2, ne_eq, not_false_eq_true, reduceCtorEq, iff_true, true_and,
      false_implies, forall_true_left]
    exact ⟨id, t, rfl, rfl, e3⟩

/-- C8 at a controller started outside its window, which holds a handle and a time, and
at that controller after its alarm was ended by an exception of the sound playback: still
active with the handle and the time stored. -/
theorem timer_time_active_coincide_witness :
    (waitingForWindow.alarmTimeout ≠ none ↔ waitingForWindow.nextAlarmTime ≠ none) ∧
    (waitingForWindow.nextAlarmTime ≠ none ↔ waitingForWindow.isActive = true) ∧
    (∃ (id : Nat) (t : Int), waitingForWindow.alarmTimeout = some id ∧
      waitingForWindow.nextAlarmTime = some t ∧
      (waitingForWindow.timers = [] ∨
        ∃ d : ℚ, waitingForWindow.timers = [{ id := id, delay := d }])) ∧
    (abortedAlarm.alarmTimeout ≠ none ↔ abortedAlarm.nextAlarmTime ≠ none) ∧
    (abortedAlarm.nextAlarmTime ≠ none ↔ abortedAlarm.isActive = true) :=
  ⟨(timer_time_active_coincide waitingForWindow waitingForWindow_reachable).1,
   (timer_time_active_coincide waitingForWindow waitingForWindow_reachable).2.1,
   (timer_time_active_coincide waitingForWindow waitingForWindow_reachable).2.2.2 rfl,
   (timer_time_active_coincide abortedAlarm abortedAlarm_reachable).1,
   (timer_time_active_coincide abortedAlarm abortedAlarm_reachable).2.1⟩

/-- C9: in every reachable state at most one timer is outstanding and an outstanding timer
is the one whose handle is stored in `alarmTimeout`; there `scheduleAlarm` leaves the new
timer as the only one; and from any state `scheduleAlarm` leaves the timers that
`clearAlarm` leaves, none of which has the previously stored handle, followed by the new
timer. -/
theorem at_most_one_timer :
    (∀ s : State, Reachable s →
      s.timers.length ≤ 1 ∧
      (∀ t ∈ s.timers, s.alarmTimeout = some t.id) ∧
      (∀ (e : Env) (d : ℚ),
        (scheduleAlarm s e d).timers = [{ id := s.nextTimerId, delay := d }])) ∧
    (∀ (s : State) (e : Env) (d : ℚ),
      (scheduleAlarm s e d).timers =
        (clearAlarm s).timers ++ [{ id := s.nextTimerId, delay := d }] ∧
      (scheduleAlarm s e d).alarmTimeout = some s.nextTimerId ∧
      (∀ k : Nat, s.alarmTimeout = some k → ∀ t ∈ (clearAlarm s).timers, t.id ≠ k)) := by
  constructor
  · intro s h
    obtain ⟨_, _, h3, h4⟩ := reachable_inv s h
    exact ⟨h4, h3, fun e d => scheduleAlarm_timers s e d h3⟩
  · intro s e d
    refine ⟨by rw [scheduleAlarm_eq], by rw [scheduleAlarm_eq], ?_⟩
    intro k hk t ht
    rw [clearAlarm_eq] at ht
    simp only [hk, clearTimeout, List.mem_filter] at ht
    simpa using ht.2

/-- C9 at a controller armed inside its window: one timer, the stored one, and none under
handle 1 once `clearAlarm` has run; and at a controller whose alarm was ended by an
exception: no timer. -/
theorem at_most_one_timer_witness :
    armedInWindow.timers.length ≤ 1 ∧
    (∀ t ∈ armedInWindow.timers, armedInWindow.alarmTimeout = some t.id) ∧
    (∀ t ∈ (clearAlarm armedInWindow).timers, t.id ≠ 1) ∧
    abortedAlarm.timers.length ≤ 1 :=
  ⟨(at_most_one_timer.1 armedInWindow armedInWindow_reachable).1,
   (at_most_one_timer.1 armedInWindow armedInWindow_reachable).2.1,
   (at_most_one_timer.2 armedInWindow (envAt elevenPm nightSettings) 0).2.2 1 rfl,
   (at_most_one_timer.1 abortedAlarm abortedAlarm_reachable).1⟩

/-! ## Stopping -/

theorem step_without_start (s s' : State) (ev : Event) (ht : s.timers = [])
    (ha : s.isActive = false) (hns : ∀ e : Env, ev ≠ Event.start e)
    (hs : step s ev = some s') :
    (∀ (id : Nat) (e : Env), ev ≠ Event.timerExpiry id e) ∧
    s'.timers = [] ∧ s'.isActive = false ∧ s'.history = s.history := by
  cases ev with
  | start e => exact absurd rfl (hns e)
  | stop =>
    simp only [step, Option.some.injEq] at hs
    subst hs
    refine ⟨(fun _ _ hh => by cases hh), ?_, by rw [stop, clearAlarm_eq],
      by rw [stop, clearAlarm_eq]⟩
    rw [stop, clearAlarm_eq]
    cases s.alarmTimeout <;> simp [ht, clearTimeout]
  | dismissAlarm =>
    simp only [step, Option.some.injEq] at hs
    subst hs
    rw [finalState_dismissAlarm]
    refine ⟨(fun _ _ hh => by cases hh), ?_, ?_, ?_⟩ <;> split_ifs <;> first | exact ht | exact ha | rfl
  | testSound e =>
    simp only [step, Option.some.injEq] at hs
    subst hs
    rw [testSound, finalState_playAnnoyingSound]
    exact ⟨(fun _ _ hh => by cases hh), (afterSound_frame s e).2.2.2.1.trans ht,
      (afterSound_frame s e).1.trans ha, (afterSound_frame s e).2.2.2.2.1⟩
  | timerExpiry id e =>
    simp [step, ht] at hs
  | soundTimer =>
    simp only [step, Option.some.injEq] at hs
    subst hs
    exact ⟨(fun _ _ hh => by cases hh), ht, ha, rfl⟩

theorem run_without_start (evs : List Event) :
    ∀ s s' : State, s.timers = [] → s.isActive = false →
      (∀ e : Env, Event.start e ∉ evs) → run s evs = some s' →
      (∀ (id : Nat) (e : Env), Event.timerExpiry id e ∉ evs) ∧
      s'.timers = [] ∧ s'.isActive = false ∧ s'.history = s.history := by
  induction evs with
  | nil =>
    intro s s' ht ha _ hr
    simp only [run, Option.some.injEq] at hr
    subst hr
    simp [ht, ha]
  | cons ev evs ih =>
    intro s s' ht ha hns hr
    have hns' : ∀ e : Env, Event.start e ∉ evs := fun e hm => hns e (List.mem_cons_of_mem _ hm)
    have hev : ∀ e : Env, ev ≠ Event.start e := fun e hh => hns e (by rw [hh]; exact List.mem_cons_self _ _)
    cases hstep : step s ev with
    | none => simp [run, hstep] at hr
    | some s1 =>
      simp only [run, hstep, Option.some_bind] at hr
      obtain ⟨h1, h2, h3, h4⟩ := step_without_start s s1 ev ht ha hev hstep
      obtain ⟨k1, k2, k3, k4⟩ := ih s1 s' h2 h3 hns' hr
      refine ⟨?_, k2, k3, k4.trans h4⟩
      intro id e hm
      rcases List.mem_cons.mp hm with hm | hm
      · exact h1 id e hm.symm
      · exact k1 id e hm

/-- C10: from every state `stop` leaves `isActive = false`, `nextAlarmTime = null` and
`alarmTimeout = null`, with no outstanding timer under the previously stored handle, and
`stop(); stop()` is `stop()`; after `stop` from a reachable state no timer is outstanding,
so no expiry (hence no `triggerAlarm`) is possible, and this stays so, with the history
unchanged, along every sequence of events that contains no `start`. -/
theorem stop_deactivates :
    (∀ s : State,
      (stop s).isActive = false ∧ (stop s).nextAlarmTime = none ∧
      (stop s).alarmTimeout = none ∧
      (∀ k : Nat, s.alarmTimeout = some k → ∀ t ∈ (stop s).timers, t.id ≠ k) ∧
      stop (stop s) = stop s) ∧
    (∀ s : State, Reachable s →
      (stop s).timers = [] ∧
      (∀ (id : Nat) (e : Env), step (stop s) (Event.timerExpiry id e) = none) ∧
      (∀ (evs : List Event) (s' : State), (∀ e : Env, Event.start e ∉ evs) →
        run (stop s) evs = some s' →
        (∀ (id : Nat) (e : Env), Event.timerExpiry id e ∉ evs) ∧
        s'.timers = [] ∧ s'.isActive = false ∧ s'.history = s.history)) := by
  constructor
  · intro s
    refine ⟨by rw [stop, clearAlarm_eq], by rw [stop, clearAlarm_eq],
      by rw [stop, clearAlarm_eq], ?_, ?_⟩
    · intro k hk t ht
      rw [stop, clearAlarm_eq] at ht
      simp only [hk, clearTimeout, List.mem_filter] at ht
      simpa using ht.2
    · rw [stop, stop, clearAlarm_eq, clearAlarm_eq]
  · intro s h
    have ht : (stop s).timers = [] :=
      clearAlarm_timers_nil { s with isActive := false } (reachable_inv s h).2.2.1
    refine ⟨ht, ?_, ?_⟩
    · intro id e
      simp [step, ht]
    · intro evs s' hns hr
      have hh : (stop s).history = s.history := by rw [stop, clearAlarm_eq]
      rw [← hh]
      exact run_without_start evs (stop s) s' ht (by rw [stop, clearAlarm_eq]) hns hr

/-- C10 at `start()` immediately followed by `stop()`. -/
theorem stop_deactivates_witness :
    (stop armedInWindow).isActive = false ∧ (stop armedInWindow).nextAlarmTime = none ∧
    (stop armedInWindow).alarmTimeout = none ∧
    stop (stop armedInWindow) = stop armedInWindow ∧
    (stop armedInWindow).timers = [] ∧
    step (stop armedInWindow) (Event.timerExpiry 1 (envAt elevenPm nightSettings)) = none ∧
    (stop (finalState (dismissAlarm (stop armedInWindow)))).timers = [] :=
  ⟨(stop_deactivates.1 armedInWindow).1,
   (stop_deactivates.1 armedInWindow).2.1,
   (stop_deactivates.1 armedInWindow).2.2.1,
   (stop_deactivates.1 armedInWindow).2.2.2.2,
   (stop_deactivates.2 armedInWindow armedInWindow_reachable).1,
   (stop_deactivates.2 armedInWindow armedInWindow_reachable).2.1 1 _,
   ((stop_deactivates.2 armedInWindow armedInWindow_reachable).2.2
     [Event.dismissAlarm, Event.stop] (stop (finalState (dismissAlarm (stop armedInWindow))))
     (by simp) rfl).2.1⟩

/-! ## Starting -/

theorem start_of_inactive (s : State) (e : Env) (ha : s.isActive = false)
    (h : ∀ t ∈ s.timers, s.alarmTimeout = some t.id) :
    start s e =
      { s with
        isActive := true
        nextAlarmTime := some (timeClip (e.fl ((e.now : ℚ) + nextDelay e)))
        alarmTimeout := some s.nextTimerId
        timers := [{ id := s.nextTimerId, delay := nextDelay e }]
        nextTimerId := s.nextTimerId + 1 } := by
  have hnil : (clearAlarm { s with isActive := true }).timers = [] :=
    clearAlarm_timers_nil { s with isActive := true } h
  unfold start
  rw [if_neg (by simp [ha]), scheduleNextAlarm_eq]
  simp only [if_true]
  rw [scheduleAlarm_eq, hnil]
  rfl

theorem stop_eq_inactiveOf (s : State)
    (h : ∀ t ∈ s.timers, s.alarmTimeout = some t.id) : stop s = inactiveOf s := by
  have hnil : (stop s).timers = [] := clearAlarm_timers_nil { s with isActive := false } h
  have hs : stop s = { stop s with timers := (stop s).timers } := rfl
  rw [hs, hnil, stop, clearAlarm_eq]
  rfl

/-- C11: `start` is a no-op on an active controller: the state is returned as it is, so
`isActive`, `nextAlarmTime`, `alarmTimeout`, the outstanding timers and the history are
unchanged, whatever the clock, the settings and the random draw of the call. -/
theorem start_noop_when_active (s : State) (e : Env) (ha : s.isActive = true) :
    start s e = s ∧
    (start s e).isActive = s.isActive ∧
    (start s e).nextAlarmTime = s.nextAlarmTime ∧
    (start s e).alarmTimeout = s.alarmTimeout ∧
    (start s e).timers = s.timers ∧
    (start s e).nextTimerId = s.nextTimerId ∧
    (start s e).history = s.history ∧
    (∀ e1 : Env, start s e1 = start s e) := by
  have h : ∀ e1 : Env, start s e1 = s := by
    intro e1
    unfold start
    rw [if_pos ha]
  rw [h e]
  exact ⟨rfl, rfl, rfl, rfl, rfl, rfl, rfl, h⟩

/-- C11 at a controller armed at 23:00 inside its window and started again at 20:00 with
the window 09:00-17:00. -/
theorem start_noop_when_active_witness :
    start armedInWindow (envAt eightPm daySettings) = armedInWindow ∧
    (start armedInWindow (envAt eightPm daySettings)).timers = armedInWindow.timers :=
  ⟨(start_noop_when_active armedInWindow (envAt eightPm daySettings) rfl).1,
   (start_noop_when_active armedInWindow (envAt eightPm daySettings) rfl).2.2.2.2.1⟩

/-- C12: from every reachable state, active or not, and for every clock, configuration
and random draw, `stop(); start()` yields what a single `start()` yields from the inactive
state with the same history: `stop` leaves exactly that inactive state, the result is
active with one outstanding timer, the stored one, whose delay is the one
`scheduleNextAlarm` computes; and against any reachable inactive state `s0` the activity,
the pending time and the delays of the outstanding timers agree, the history too when
the histories agree, and the timers and the stored handle themselves when the host hands
out the same handle. -/
theorem stop_start_eq_start (s : State) (e : Env) (h : Reachable s) :
    stop s = inactiveOf s ∧
    start (stop s) e = start (inactiveOf s) e ∧
    (start (stop s) e).isActive = true ∧
    (start (stop s) e).nextAlarmTime =
      some (timeClip (e.fl ((e.now : ℚ) + nextDelay e))) ∧
    (start (stop s) e).alarmTimeout = some s.nextTimerId ∧
    (start (stop s) e).timers = [{ id := s.nextTimerId, delay := nextDelay e }] ∧
    (start (stop s) e).history = s.history ∧
    (∀ s0 : State, Reachable s0 → s0.isActive = false →
      (start s0 e).isActive = (start (stop s) e).isActive ∧
      (start s0 e).nextAlarmTime = (start (stop s) e).nextAlarmTime ∧
      (start s0 e).timers.map Timer.delay = (start (stop s) e).timers.map Timer.delay ∧
      (start s0 e).timers.map Timer.id = (start s0 e).alarmTimeout.toList ∧
      (s0.history = s.history → (start s0 e).history = (start (stop s) e).history) ∧
      (s0.nextTimerId = s.nextTimerId →
        (start s0 e).timers = (start (stop s) e).timers ∧
        (start s0 e).alarmTimeout = (start (stop s) e).alarmTimeout)) := by
  have hinv := reachable_inv s h
  have hstop : stop s = inactiveOf s := stop_eq_inactiveOf s hinv.2.2.1
  have hst : start (inactiveOf s) e =
      { inactiveOf s with
        isActive := true
        nextAlarmTime := some (timeClip (e.fl ((e.now : ℚ) + nextDelay e)))
        alarmTimeout := some (inactiveOf s).nextTimerId
        timers := [{ id := (inactiveOf s).nextTimerId, delay := nextDelay e }]
        nextTimerId := (inactiveOf s).nextTimerId + 1 } :=
    start_of_inactive (inactiveOf s) e rfl (fun t ht => by cases ht)
  rw [hstop, hst]
  refine ⟨rfl, rfl, rfl, rfl, rfl, rfl, rfl, ?_⟩
  intro s0 h0 ha0
  rw [start_of_inactive s0 e ha0 (reachable_inv s0 h0).2.2.1]
  refine ⟨rfl, rfl, rfl, rfl, fun hh => hh, fun hn => ?_⟩
  simp only [inactiveOf, hn, and_self]

/-- C12 at a controller armed inside its window, stopped and started again at 20:00 with
the window 09:00-17:00, against a start of the freshly constructed controller. -/
theorem stop_start_eq_start_witness :
    start (stop armedInWindow) (envAt eightPm daySettings) =
      start (inactiveOf armedInWindow) (envAt eightPm daySettings) ∧
    (start (init true) (envAt eightPm daySettings)).nextAlarmTime =
      (start (stop armedInWindow) (envAt eightPm daySettings)).nextAlarmTime ∧
    (start (init true) (envAt eightPm daySettings)).timers.map Timer.delay =
      (start (stop armedInWindow) (envAt eightPm daySettings)).timers.map Timer.delay ∧
    (start (init true) (envAt eightPm daySettings)).history =
      (start (stop armedInWindow) (envAt eightPm daySettings)).history :=
  ⟨(stop_start_eq_start armedInWindow (envAt eightPm daySettings)
      armedInWindow_reachable).2.1,
   ((stop_start_eq_start armedInWindow (envAt eightPm daySettings)
      armedInWindow_reachable).2.2.2.2.2.2.2 (init true) (Reachable.init true) rfl).2.1,
   ((stop_start_eq_start armedInWindow (envAt eightPm daySettings)
      armedInWindow_reachable).2.2.2.2.2.2.2 (init true) (Reachable.init true) rfl).2.2.1,
   ((stop_start_eq_start armedInWindow (envAt eightPm daySettings)
      armedInWindow_reachable).2.2.2.2.2.2.2 (init true) (Reachable.init true)
      rfl).2.2.2.2.1 rfl⟩

/-! ## The expiry of a window-wait timer -/

theorem pushRecord_head (r : AlarmRecord) (history : List AlarmRecord) :
    (pushRecord r history).head? = some r := by
  unfold pushRecord
  split_ifs with hl
  · cases history with
    | nil => simp at hl
    | cons a rest => simp [List.dropLast]
  · rfl

theorem scheduleNextAlarm_frame (s : State) (e : Env) :
    (scheduleNextAlarm s e).history = s.history ∧
    (scheduleNextAlarm s e).overlayActive = s.overlayActive ∧
    (scheduleNextAlarm s e).oscillator = s.oscillator ∧
    (scheduleNextAlarm s e).gainNode = s.gainNode ∧
    (scheduleNextAlarm s e).notifications = s.notifications ∧
    (scheduleNextAlarm s e).audioContext = s.audioContext ∧
    (scheduleNextAlarm s e).isActive = s.isActive := by
  rw [scheduleNextAlarm_eq, scheduleAlarm_eq]
  split_ifs <;> exact ⟨rfl, rfl, rfl, rfl, rfl, rfl, rfl⟩

theorem playAnnoyingSound_returns_iff (s : State) (e : Env) :
    (∃ s' : State, playAnnoyingSound s e = Except.ok s') ↔
      (s.audioContext = false ∨ soundThrows e = false) := by
  rw [playAnnoyingSound_eq]
  cases ha : s.audioContext <;> cases ht : soundThrows e <;> simp

theorem triggerAlarm_of_return (s : State) (e : Env)
    (hret : s.audioContext = false ∨ soundThrows e = false) :
    triggerAlarm s e =
      Except.ok (scheduleNextAlarm
        { afterSound { s with history := pushRecord (alarmRecord e) s.history } e with
          overlayActive := true
          notifications := if e.notificationGranted then s.notifications + 1
            else s.notifications } e) := by
  rw [triggerAlarm_eq]
  have hc : (s.audioContext && soundThrows e) = false := by
    rcases hret with h | h <;> simp [h]
  simp only [hc, Bool.false_eq_true, if_false]

theorem triggerAlarm_of_throw (s : State) (e : Env)
    (ha : s.audioContext = true) (ht : soundThrows e = true) :
    triggerAlarm s e =
      Except.error (afterSound { s with history := pushRecord (alarmRecord e) s.history } e) := by
  rw [triggerAlarm_eq]
  simp only [ha, ht, Bool.and_self, if_true]

/-- C2, as the code has it: every timer is armed with the callback `triggerAlarm`, so
when a window-wait timer (armed by `scheduleNextAlarm` outside the window, and then the
only outstanding one) expires, an alarm fires as for any other timer: a record is put at
the head of the history (capped at 10) and the sound is played if there is an audio
context; provided `playAnnoyingSound` returns, the overlay is shown, a notification is
sent if permitted, and the window/interval logic is re-run and arms exactly one new timer,
the stored one, with a random interval if the expiry instant lies inside the window. -/
theorem window_wait_expiry_triggers_alarm (s : State) (e0 e1 : Env)
    (ha : s.isActive = true)
    (hno : ∀ t ∈ s.timers, s.alarmTimeout = some t.id)
    (hw : isTimeInRange (currentTimeOf e0.now) (parseTime e0.settings.startTime)
      (parseTime e0.settings.endTime) = false)
    (hret : s.audioContext = false ∨ soundThrows e1 = false) :
    (scheduleNextAlarm s e0).alarmTimeout = some s.nextTimerId ∧
    (scheduleNextAlarm s e0).timers = [{ id := s.nextTimerId, delay := nextDelay e0 }] ∧
    nextDelay e0 =
      (((getNextActiveTime e0.now (parseTime e0.settings.startTime)
        (parseTime e0.settings.endTime) : Int) - (e0.now : Int) : Int) : ℚ) ∧
    ∃ s2 : State,
      step (scheduleNextAlarm s e0) (Event.timerExpiry s.nextTimerId e1) = some s2 ∧
      triggerAlarm { scheduleNextAlarm s e0 with timers := [] } e1 = Except.ok s2 ∧
      s2.history = pushRecord (alarmRecord e1) s.history ∧
      s2.history.head? = some (alarmRecord e1) ∧
      s2.overlayActive = true ∧
      (s.audioContext = true →
        s2.oscillator =
          some
            { soundType := e1.settings.soundType
              duration := e1.settings.duration
              started := true } ∧
        s2.gainNode = some { volume := e1.fl ((e1.settings.volume : ℚ) / 100) }) ∧
      s2.notifications =
        (if e1.notificationGranted then s.notifications + 1 else s.notifications) ∧
      s2.isActive = true ∧
      s2.alarmTimeout = some (s.nextTimerId + 1 +
        (if s.audioContext then soundTimers e1.settings.soundType else 0)) ∧
      s2.timers =
        [{ id := s.nextTimerId + 1 +
                  (if s.audioContext then soundTimers e1.settings.soundType else 0)
           delay := nextDelay e1 }] ∧
      (isTimeInRange (currentTimeOf e1.now) (parseTime e1.settings.startTime)
          (parseTime e1.settings.endTime) = true →
        nextDelay e1 =
          randomInterval e1.fl e1.random e1.settings.minInterval e1.settings.maxInterval) := by
  have hs1 : scheduleNextAlarm s e0 =
      { s with
        nextAlarmTime := some (timeClip (e0.fl ((e0.now : ℚ) + nextDelay e0)))
        alarmTimeout := some s.nextTimerId
        timers := [{ id := s.nextTimerId, delay := nextDelay e0 }]
        nextTimerId := s.nextTimerId + 1 } := by
    rw [scheduleNextAlarm_eq, if_pos ha, scheduleAlarm_eq, clearAlarm_timers_nil s hno]
    rfl
  rw [hs1]
  refine ⟨rfl, rfl, by simp [nextDelay, hw], ?_⟩
  have hclear : clearTimeout [({ id := s.nextTimerId, delay := nextDelay e0 } : Timer)]
      s.nextTimerId = [] := by
    simp [clearTimeout]
  have hstep : ∀ x : State,
      step { s with
        nextAlarmTime := some (timeClip (e0.fl ((e0.now : ℚ) + nextDelay e0)))
        alarmTimeout := some s.nextTimerId
        timers := [{ id := s.nextTimerId, delay := nextDelay e0 }]
        nextTimerId := s.nextTimerId + 1 } (Event.timerExpiry s.nextTimerId e1) = some x ↔
      finalState (triggerAlarm { s with
        nextAlarmTime := some (timeClip (e0.fl ((e0.now : ℚ) + nextDelay e0)))
        alarmTimeout := some s.nextTimerId
        timers := []
        nextTimerId := s.nextTimerId + 1 } e1) = x := by
    intro x
    simp [step, hclear]
  have htr := triggerAlarm_of_return { s with
        nextAlarmTime := some (timeClip (e0.fl ((e0.now : ℚ) + nextDelay e0)))
        alarmTimeout := some s.nextTimerId
        timers := []
        nextTimerId := s.nextTimerId + 1 } e1 hret
  refine ⟨_, (hstep _).mpr (by rw [htr]; rfl), htr, ?_⟩
  rw [scheduleNextAlarm_eq]
  cases hau : s.audioContext
  · simp only [afterSound, hau, Bool.false_eq_true, if_false, ha, if_true]
    rw [scheduleAlarm_eq, clearAlarm_eq]
    refine ⟨rfl, pushRecord_head _ _, rfl, (by intro h; cases h), rfl, rfl, ?_, ?_, ?_⟩
    · simp
    · simp [clearTimeout]
    · intro hw1
      simp [nextDelay, hw1]
  · have hst : (e1.settings.soundType == SoundType.static && soundThrows e1) = false := by
      rcases hret with h | h
      · rw [hau] at h
        cases h
      · simp [h]
    simp only [afterSound, hau, if_true, ha, hst, Bool.not_false]
    rw [scheduleAlarm_eq, clearAlarm_eq]
    refine ⟨rfl, pushRecord_head _ _, rfl, fun _ => ⟨rfl, rfl⟩, rfl, rfl, ?_, ?_, ?_⟩
    · simp [Nat.add_assoc]
    · simp [clearTimeout, Nat.add_assoc]
    · intro hw1
      simp [nextDelay, hw1]

theorem soundThrows_defaults (now : Nat) (a b : TimeValue) (m n : Int) :
    soundThrows (envAt now (settingsOf a b m n)) = false := by
  norm_num [soundThrows, envAt, settingsOf]

theorem soundThrows_nineAm : soundThrows (envAt nineAmNextDay daySettings) = false :=
  soundThrows_defaults nineAmNextDay ⟨9, 0⟩ ⟨17, 0⟩ 30 120

theorem waitingForWindow_timers :
    waitingForWindow.timers = [{ id := 1, delay := 46800000 }] := by
  have h : waitingForWindow = scheduleAlarm switchedOn (envAt eightPm daySettings)
      (((getNextActiveTime eightPm 540 1020 : Int) - (eightPm : Int) : Int) : ℚ) :=
    scheduleNextAlarm_outside switchedOn (envAt eightPm daySettings) rfl (by decide)
  rw [h, scheduleAlarm_timers switchedOn _ _ (fun t ht => by cases ht)]
  have hg : getNextActiveTime eightPm 540 1020 = 118800000 := by decide
  rw [hg]
  norm_num [switchedOn, init, eightPm]

/-- C2 fails as stated: a controller started at 20:00 with the window 09:00-17:00 is
outside the window and arms timer 1 to wait the 13 hours to it; when that timer expires at
09:00 the next day the history, empty before, holds a record, the overlay is shown, a
sound is playing and a notification has been sent. -/
theorem window_wait_expiry_not_silent :
    isTimeInRange (currentTimeOf eightPm) (parseTime daySettings.startTime)
      (parseTime daySettings.endTime) = false ∧
    waitingForWindow.alarmTimeout = some 1 ∧
    waitingForWindow.timers = [{ id := 1, delay := 46800000 }] ∧
    waitingForWindow.history = [] ∧
    waitingForWindow.overlayActive = false ∧
    waitingForWindow.oscillator = none ∧
    waitingForWindow.notifications = 0 ∧
    (step waitingForWindow (Event.timerExpiry 1 (envAt nineAmNextDay daySettings))).map
      (fun s => (s.history, s.overlayActive, s.oscillator, s.notifications)) =
      some ([{ time := nineAmNextDay, sound := SoundType.dialup, date := nineAmNextDay }],
        true, some { soundType := SoundType.dialup, duration := 10, started := true }, 1) := by
  refine ⟨by decide, rfl, waitingForWindow_timers, rfl, rfl, rfl, rfl, ?_⟩
  have hstep : step waitingForWindow (Event.timerExpiry 1 (envAt nineAmNextDay daySettings)) =
      some (finalState (triggerAlarm
        { waitingForWindow with timers := clearTimeout waitingForWindow.timers 1 }
        (envAt nineAmNextDay daySettings))) := rfl
  rw [hstep, triggerAlarm_of_return _ _ (Or.inr soundThrows_nineAm)]
  simp only [Option.map_some', finalState, Option.some.injEq, Prod.mk.injEq]
  rw [(scheduleNextAlarm_frame _ _).1, (scheduleNextAlarm_frame _ _).2.1,
    (scheduleNextAlarm_frame _ _).2.2.1, (scheduleNextAlarm_frame _ _).2.2.2.2.1]
  exact ⟨rfl, rfl, rfl, rfl⟩

/-- C2 as amended, at the controller started at 20:00 with the window 09:00-17:00 whose
timer expires at 09:00 the next day under the default dial-up sound: the sound takes
handle 2 and the new timer handle 3. -/
theorem window_wait_expiry_triggers_alarm_witness :
    ∃ s2 : State,
      step (scheduleNextAlarm switchedOn (envAt eightPm daySettings))
        (Event.timerExpiry 1 (envAt nineAmNextDay daySettings)) = some s2 ∧
      s2.history = pushRecord (alarmRecord (envAt nineAmNextDay daySettings)) [] ∧
      s2.overlayActive = true ∧
      s2.alarmTimeout = some 3 ∧
      s2.timers = [{ id := 3, delay := nextDelay (envAt nineAmNextDay daySettings) }] :=
  have h := (window_wait_expiry_triggers_alarm switchedOn (envAt eightPm daySettings)
    (envAt nineAmNextDay daySettings) rfl (fun t ht => by cases ht) (by decide)
    (Or.inr soundThrows_nineAm)).2.2.2
  ⟨h.choose, h.choose_spec.1, h.choose_spec.2.2.1, h.choose_spec.2.2.2.2.1,
    h.choose_spec.2.2.2.2.2.2.2.2.1, h.choose_spec.2.2.2.2.2.2.2.2.2.1⟩

/-! ## Dismissing -/

theorem afterSound_history_playback (s : State) (e : Env) (hist : List AlarmRecord)
    (ts : List Timer) :
    (afterSound { s with history := hist, timers := ts } e).oscillator =
      (afterSound s e).oscillator ∧
    (afterSound { s with history := hist, timers := ts } e).gainNode =
      (afterSound s e).gainNode := by
  simp only [afterSound]
  split_ifs <;> exact ⟨rfl, rfl⟩

theorem triggerAlarm_playback (s : State) (e : Env) :
    (finalState (triggerAlarm s e)).oscillator =
      (afterSound { s with history := pushRecord (alarmRecord e) s.history } e).oscillator ∧
    (finalState (triggerAlarm s e)).gainNode =
      (afterSound { s with history := pushRecord (alarmRecord e) s.history } e).gainNode := by
  rw [triggerAlarm_eq]
  cases hc : (s.audioContext && soundThrows e)
  · simp only [Bool.false_eq_true, if_false, finalState]
    rw [(scheduleNextAlarm_frame _ e).2.2.1, (scheduleNextAlarm_frame _ e).2.2.2.1]
    exact ⟨rfl, rfl⟩
  · exact ⟨rfl, rfl⟩

theorem step_playback (s s' : State) (ev : Event) (hs : step s ev = some s')
    (h : s.oscillator.isSome = s.gainNode.isSome) :
    s'.oscillator.isSome = s'.gainNode.isSome := by
  cases ev with
  | start e =>
    simp only [step, Option.some.injEq] at hs
    subst hs
    unfold start
    split_ifs
    · exact h
    · rw [(scheduleNextAlarm_frame _ e).2.2.1, (scheduleNextAlarm_frame _ e).2.2.2.1]
      exact h
  | stop =>
    simp only [step, Option.some.injEq] at hs
    subst hs
    rw [stop, clearAlarm_eq]
    exact h
  | dismissAlarm =>
    simp only [step, Option.some.injEq] at hs
    subst hs
    rw [finalState_dismissAlarm]
    split_ifs
    · exact h
    · rfl
  | testSound e =>
    simp only [step, Option.some.injEq] at hs
    subst hs
    rw [testSound, finalState_playAnnoyingSound]
    exact (afterSound_playback s e).mpr (Or.inl h)
  | timerExpiry id e =>
    simp only [step] at hs
    split_ifs at hs
    simp only [Option.some.injEq] at hs
    subst hs
    rw [(triggerAlarm_playback _ e).1, (triggerAlarm_playback _ e).2]
    exact (afterSound_playback _ e).mpr (Or.inl h)
  | soundTimer =>
    simp only [step, Option.some.injEq] at hs
    subst hs
    exact h

theorem reachable_playback (s : State) (h : Reachable s) :
    s.oscillator.isSome = s.gainNode.isSome := by
  induction h with
  | init audio => rfl
  | step ev _ hs ih => exact step_playback _ _ ev hs ih

theorem stopThrows_of_none (s : State) (h : s.oscillator = none) : stopThrows s = false := by
  unfold stopThrows
  rw [h]

/-- C13: `dismissAlarm` does not affect scheduling: whether it returns or is ended by the
exception of `oscillator.stop()` on an oscillator never started, it leaves `isActive`,
`nextAlarmTime`, `alarmTimeout`, the outstanding timers, the history and every field
other than the overlay flag, `oscillator` and `gainNode` as they were; it clears the
overlay flag, and both playback fields unless that exception occurs; a second call ends as
the first and changes nothing more; and in a reachable state where no sound is playing
(`oscillator` is null) it leaves the playback fields as they were. -/
theorem dismissAlarm_frame (s : State) :
    (dismissAlarm s =
      if stopThrows s then Except.error { s with overlayActive := false }
      else Except.ok { s with overlayActive := false, oscillator := none, gainNode := none }) ∧
    (finalState (dismissAlarm s)).isActive = s.isActive ∧
    (finalState (dismissAlarm s)).nextAlarmTime = s.nextAlarmTime ∧
    (finalState (dismissAlarm s)).alarmTimeout = s.alarmTimeout ∧
    (finalState (dismissAlarm s)).timers = s.timers ∧
    (finalState (dismissAlarm s)).history = s.history ∧
    (finalState (dismissAlarm s)).audioContext = s.audioContext ∧
    (finalState (dismissAlarm s)).nextTimerId = s.nextTimerId ∧
    (finalState (dismissAlarm s)).notifications = s.notifications ∧
    (finalState (dismissAlarm s)).overlayActive = false ∧
    dismissAlarm (finalState (dismissAlarm s)) = dismissAlarm s ∧
    (∀ o : Oscillator, s.oscillator = some o → o.started = true →
      (finalState (dismissAlarm s)).oscillator = none ∧
      (finalState (dismissAlarm s)).gainNode = none) ∧
    (s.oscillator = none → s.gainNode = none →
      (finalState (dismissAlarm s)).oscillator = s.oscillator ∧
      (finalState (dismissAlarm s)).gainNode = s.gainNode) ∧
    (Reachable s → s.oscillator = none →
      (finalState (dismissAlarm s)).oscillator = s.oscillator ∧
      (finalState (dismissAlarm s)).gainNode = s.gainNode) ∧
    (s.oscillator = none → s.gainNode = none → s.overlayActive = false →
      dismissAlarm s = Except.ok s) := by
  have hd := dismissAlarm_eq s
  have hidem : dismissAlarm (finalState (dismissAlarm s)) = dismissAlarm s := by
    rw [finalState_dismissAlarm]
    cases ht : stopThrows s
    · simp only [Bool.false_eq_true, if_false]
      rw [dismissAlarm_eq, dismissAlarm_eq, ht]
      rfl
    · simp only [if_true]
      have ht' : stopThrows { s with overlayActive := false } = true := ht
      rw [dismissAlarm_eq, dismissAlarm_eq, ht, ht']
  have hnone : s.oscillator = none → s.gainNode = none →
      (finalState (dismissAlarm s)).oscillator = s.oscillator ∧
      (finalState (dismissAlarm s)).gainNode = s.gainNode := by
    intro ho hg
    rw [finalState_dismissAlarm, stopThrows_of_none s ho, ho, hg]
    exact ⟨rfl, rfl⟩
  refine ⟨hd, ?_, ?_, ?_, ?_, ?_, ?_, ?_, ?_, ?_, hidem, ?_, hnone, ?_, ?_⟩
  · rw [finalState_dismissAlarm]; split_ifs <;> rfl
  · rw [finalState_dismissAlarm]; split_ifs <;> rfl
  · rw [finalState_dismissAlarm]; split_ifs <;> rfl
  · rw [finalState_dismissAlarm]; split_ifs <;> rfl
  · rw [finalState_dismissAlarm]; split_ifs <;> rfl
  · rw [finalState_dismissAlarm]; split_ifs <;> rfl
  · rw [finalState_dismissAlarm]; split_ifs <;> rfl
  · rw [finalState_dismissAlarm]; split_ifs <;> rfl
  · rw [finalState_dismissAlarm]; split_ifs <;> rfl
  · intro o ho hst
    have ht : stopThrows s = false := by
      unfold stopThrows
      rw [ho]
      simp [hst]
    rw [finalState_dismissAlarm, ht]
    exact ⟨rfl, rfl⟩
  · intro hr ho
    have hg : s.gainNode = none := by
      have := reachable_playback s hr
      rw [ho] at this
      simpa using this.symm
    exact hnone ho hg
  · intro ho hg hov
    rw [hd, stopThrows_of_none s ho]
    obtain ⟨a, nt, t, audio, o, g, hi, ov, ts, n, k⟩ := s
    simp only at ho hg hov
    subst ho hg hov
    rfl

/-- C13 at a controller armed inside its window with no sound playing, on which
`dismissAlarm` changes nothing; at one whose alarm has just fired; and at one whose alarm
was ended by an exception before the oscillator was started, where `dismissAlarm` is ended
by an exception too and leaves the scheduling fields alone. -/
theorem dismissAlarm_frame_witness :
    dismissAlarm armedInWindow = Except.ok armedInWindow ∧
    ((finalState (dismissAlarm armedInWindow)).oscillator = armedInWindow.oscillator ∧
      (finalState (dismissAlarm armedInWindow)).gainNode = armedInWindow.gainNode) ∧
    (finalState (dismissAlarm alarmFired)).timers = alarmFired.timers ∧
    (finalState (dismissAlarm alarmFired)).history = alarmFired.history ∧
    dismissAlarm (finalState (dismissAlarm alarmFired)) = dismissAlarm alarmFired ∧
    dismissAlarm abortedAlarm = Except.error { abortedAlarm with overlayActive := false } ∧
    (finalState (dismissAlarm abortedAlarm)).alarmTimeout = abortedAlarm.alarmTimeout ∧
    dismissAlarm (finalState (dismissAlarm abortedAlarm)) = dismissAlarm abortedAlarm :=
  ⟨(dismissAlarm_frame armedInWindow).2.2.2.2.2.2.2.2.2.2.2.2.2.2 rfl rfl rfl,
   (dismissAlarm_frame armedInWindow).2.2.2.2.2.2.2.2.2.2.2.2.2.1 armedInWindow_reachable rfl,
   (dismissAlarm_frame alarmFired).2.2.2.2.1,
   (dismissAlarm_frame alarmFired).2.2.2.2.2.1,
   (dismissAlarm_frame alarmFired).2.2.2.2.2.2.2.2.2.2.1,
   (dismissAlarm_frame abortedAlarm).1,
   (dismissAlarm_frame abortedAlarm).2.2.2.1,
   (dismissAlarm_frame abortedAlarm).2.2.2.2.2.2.2.2.2.2.1⟩


end ReverseAlarmClock
